import Mathlib

/-!
Shallow embedding of the CloudMap repository's intent-detection, prompt,
response-processing, retry, store and session modules, together with proofs
of the behavioural claims about them.

Strings are modelled as `String` / `List Char`; the JavaScript regular
expressions used by the source are embedded as abstract syntax trees
(`Reg`) executed by a backtracking matcher with JavaScript semantics
(ordered alternation, greedy and lazy repetition, leftmost match).
-/

/-- JS word character class `\w` = `[A-Za-z0-9_]`. -/
def isWordChar (c : Char) : Bool := c.isAlphanum || c == '_'

/-- JS whitespace class `\s` (the characters relevant to this codebase). -/
def isJsSpace (c : Char) : Bool :=
  c == ' ' || c == '\t' || c == '\n' || c == '\r' ||
  c == Char.ofNat 11 || c == Char.ofNat 12 || c == Char.ofNat 160

/-- The apostrophe character. -/
def apoc : Char := Char.ofNat 39

/-- Lower-casing of a character list; models `String.prototype.toLowerCase`
on the ASCII data this repository handles. -/
def lowerL (s : List Char) : List Char := s.map Char.toLower

/-- Does `hay` start with `needle`? -/
def hasPfx : List Char → List Char → Bool
  | [], _ => true
  | _ :: _, [] => false
  | c :: cs, h :: hs => c == h && hasPfx cs hs

/-- Does `hay` contain `needle` as a contiguous substring?
Models `String.prototype.includes`. -/
def containsSub (needle : List Char) : List Char → Bool
  | [] => needle.isEmpty
  | c :: t => hasPfx needle (c :: t) || containsSub needle t

/-- `String.prototype.includes` on `String`s. -/
def jsIncludes (s sub : String) : Bool := containsSub sub.data s.data

/-- Models `String.prototype.trim` (strips JS whitespace at both ends). -/
def trimL (s : List Char) : List Char :=
  ((s.dropWhile isJsSpace).reverse.dropWhile isJsSpace).reverse

/-- `String.prototype.trim` on `String`s. -/
def jsTrim (s : String) : String := String.mk (trimL s.data)

/-- Index of the first occurrence of `needle`, if any.
Models `String.prototype.indexOf` (as an `Option` instead of `-1`). -/
def indexOfSub (needle : List Char) : List Char → Option Nat
  | [] => if needle.isEmpty then some 0 else none
  | c :: t =>
    if hasPfx needle (c :: t) then some 0
    else (indexOfSub needle t).map (· + 1)

/-- Abstract syntax of the JavaScript regular-expression fragment used by
the repository: character classes, concatenation, ordered alternation,
greedy/lazy repetition (`star lazy r`), numbered capture groups, and the
end-of-input anchor `$`. -/
inductive Reg : Type where
  | eps : Reg
  | cls : (Char → Bool) → Reg
  | cat : Reg → Reg → Reg
  | alt : Reg → Reg → Reg
  | star : Bool → Reg → Reg
  | grp : Nat → Reg → Reg
  | eos : Reg

/-- Capture-group assignments recorded during a match, as positions: for
each group number, the length of the remaining input where the group
started and where it ended (the text is recovered from the original
subject, exactly as JavaScript reports original-case captures under the
`i` flag).  Later writes shadow earlier ones (JavaScript keeps the last
value written to a group). -/
abbrev Caps := List (Nat × Nat × Nat)

/-- Record a capture-group span. -/
def setCap (cp : Caps) (n a b : Nat) : Caps := (n, a, b) :: cp

/-- Read a capture-group span (the most recently written one). -/
def getCap (cp : Caps) (n : Nat) : Option (Nat × Nat) :=
  (cp.find? (fun p => p.1 == n)).map (·.2)

/-- Backtracking matcher with JavaScript semantics, in continuation-passing
style.  Alternation tries the left branch first; greedy repetition tries to
iterate before falling through, lazy repetition the converse; an iteration
of a repetition must consume input (JavaScript's empty-match loop guard).
`fuel` bounds the recursion depth; it decreases on every call, siblings
of the backtracking search get equal budgets, and a repetition re-enters
only after consuming input, so a fuel of `(length + 2) * (size + 2)`
is never exhausted. -/
def mrun : Nat → Reg → List Char → Caps →
    (List Char → Caps → Option (List Char × Caps)) →
    Option (List Char × Caps)
  | 0, _, _, _, _ => none
  | fuel + 1, r, s, cp, k =>
    match r with
    | .eps => k s cp
    | .cls p =>
      match s with
      | [] => none
      | c :: s1 => if p c then k s1 cp else none
    | .cat a b => mrun fuel a s cp (fun s1 cp1 => mrun fuel b s1 cp1 k)
    | .alt a b => mrun fuel a s cp k <|> mrun fuel b s cp k
    | .grp n r1 =>
      mrun fuel r1 s cp (fun s1 cp1 =>
        k s1 (setCap cp1 n s.length s1.length))
    | .eos => if s.isEmpty then k s cp else none
    | .star lz r1 =>
      let once := mrun fuel r1 s cp (fun s1 cp1 =>
        if s1.length < s.length then mrun fuel (.star lz r1) s1 cp1 k
        else k s1 cp1)
      if lz then k s cp <|> once else once <|> k s cp

/-- Syntactic size of a regex (executable, unlike the derived `sizeOf`,
whose instance is noncomputable because of the `cls` function field). -/
def Reg.size : Reg → Nat
  | .eps => 1
  | .cls _ => 1
  | .cat a b => a.size + b.size + 1
  | .alt a b => a.size + b.size + 1
  | .star _ r => r.size + 1
  | .grp _ r => r.size + 1
  | .eos => 1

/-- Fuel that is always sufficient for `mrun` (see its docstring). -/
def regFuel (r : Reg) (s : List Char) : Nat := (s.length + 2) * (r.size + 2)

/-- Try to match `r` at the start of `s`; on success return the number of
characters consumed and the recorded capture groups. -/
def execAt (r : Reg) (s : List Char) : Option (Nat × Caps) :=
  match mrun (regFuel r s) r s [] (fun rest cp => some (rest, cp)) with
  | some (rest, cp) => some (s.length - rest.length, cp)
  | none => none

/-- Leftmost match: try `execAt` at every start position left to right.
Returns (start index, length, captures).  This is the JavaScript search
order used by `RegExp.prototype.test` / `String.prototype.match`. -/
def searchFrom (r : Reg) : Nat → List Char → Option (Nat × Nat × Caps)
  | i, [] => (execAt r []).map (fun lc => (i, lc.1, lc.2))
  | i, c :: t =>
    match execAt r (c :: t) with
    | some (len, cp) => some (i, len, cp)
    | none => searchFrom r (i + 1) t

/-- A JavaScript regular expression: syntax tree plus the `^` anchor and
the `i` flag. -/
structure JsRegex where
  reg : Reg
  anchoredStart : Bool := false
  ignoreCase : Bool := false
  source : String := ""

/-- Leftmost match of a JS regex against a character list (the subject is
lower-cased first when the `i` flag is set; for the ASCII subjects at hand
this is exactly JS case-insensitive matching and preserves positions). -/
def jsSearch (p : JsRegex) (s : List Char) : Option (Nat × Nat × Caps) :=
  let t := if p.ignoreCase then lowerL s else s
  if p.anchoredStart then (execAt p.reg t).map (fun lc => (0, lc.1, lc.2))
  else searchFrom p.reg 0 t

/-- Models `RegExp.prototype.test`. -/
def jsTest (p : JsRegex) (s : String) : Bool := (jsSearch p s.data).isSome

/-- The full text (`match[0]`) of the leftmost match, extracted from the
original string so that letter case is preserved. -/
def jsMatchWhole (p : JsRegex) (s : String) : Option String :=
  (jsSearch p s.data).map (fun m => String.mk ((s.data.drop m.1).take m.2.1))

/-- The value of capture group `n` of the leftmost match: `none` when the
regex does not match at all, `some none` when it matches but the group is
unset.  The text is sliced out of the original string (a group that
started when `a` characters remained and ended when `b` remained covers
positions `length - a` to `length - b`). -/
def jsMatchGroup (p : JsRegex) (n : Nat) (s : String) :
    Option (Option String) :=
  (jsSearch p s.data).map (fun m => (getCap m.2.2 n).map (fun c =>
    String.mk ((s.data.drop (s.data.length - c.1)).take (c.1 - c.2))))

/-- Models non-global `String.prototype.replace(p, "")`: remove the
leftmost match, if any. -/
def jsRemoveFirst (p : JsRegex) (s : String) : String :=
  match jsSearch p s.data with
  | some (i, len, _) => String.mk (s.data.take i ++ s.data.drop (i + len))
  | none => s

/-- All possible intermediate results ("ends") of matching `r` at the start
of `s`, ignoring priority and captures.  Used for word-boundary (`\b`)
patterns, where JavaScript backtracks until the boundary holds. -/
def allEnds : Nat → Reg → List Char → List (List Char)
  | 0, _, _ => []
  | fuel + 1, r, s =>
    match r with
    | .eps => [s]
    | .cls p =>
      match s with
      | [] => []
      | c :: t => if p c then [t] else []
    | .cat a b => (allEnds fuel a s).flatMap (fun s1 => allEnds fuel b s1)
    | .alt a b => allEnds fuel a s ++ allEnds fuel b s
    | .grp _ r1 => allEnds fuel r1 s
    | .eos => if s.isEmpty then [s] else []
    | .star lz r1 =>
      s :: (allEnds fuel r1 s).flatMap (fun s1 =>
        if s1.length < s.length then allEnds fuel (.star lz r1) s1 else [])

/-- A `\b` word boundary holds between two (optional, `none` = outside the
string) characters when exactly one of them is a word character. -/
def wordBoundary (a b : Option Char) : Bool :=
  (match a with | some c => isWordChar c | none => false) !=
  (match b with | some c => isWordChar c | none => false)

/-- Does `\b core \b` match at the start of `s`, given the character
`prev` just before this position? -/
def wbMatchAt (core : Reg) (prev : Option Char) (s : List Char) : Bool :=
  (allEnds (regFuel core s) core s).any (fun rest =>
    let len := s.length - rest.length
    if len == 0 then false
    else wordBoundary prev s.head? && wordBoundary (s.get? (len - 1)) rest.head?)

/-- Scan for a match of `\b core \b` anywhere, tracking the previous
character for the left boundary. -/
def testWBFrom (core : Reg) (prev : Option Char) : List Char → Bool
  | [] => false
  | c :: t => wbMatchAt core prev (c :: t) || testWBFrom core (some c) t

/-- Models `/\b core \b/.test(s)`. -/
def testWB (core : Reg) (s : List Char) : Bool := testWBFrom core none s

/-- Single literal character. -/
def rchar (c : Char) : Reg := .cls (fun x => x == c)

/-- Literal string. -/
def rstr (s : String) : Reg := s.data.foldr (fun c r => .cat (rchar c) r) .eps

/-- Concatenation of a list of regexes. -/
def rcat (l : List Reg) : Reg := l.foldr .cat .eps

/-- Ordered alternation `a|b|...` (left branch first, as in JavaScript). -/
def ralt : List Reg → Reg
  | [] => .cls (fun _ => false)
  | [r] => r
  | r :: rs => .alt r (ralt rs)

/-- Greedy `r?`. -/
def ropt (r : Reg) : Reg := .alt r .eps

/-- Greedy `r*`. -/
def rstar (r : Reg) : Reg := .star false r

/-- Greedy `r+`. -/
def rplus (r : Reg) : Reg := .cat r (.star false r)

/-- Lazy `r*?`. -/
def rstarLazy (r : Reg) : Reg := .star true r

/-- Lazy `r+?`. -/
def rplusLazy (r : Reg) : Reg := .cat r (.star true r)

/-- JS `.` (any character except line terminators; no `s` flag is used
anywhere in the repository). -/
def rdot : Reg :=
  .cls (fun c => !(c == '\n' || c == '\r' || c == Char.ofNat 0x2028 || c == Char.ofNat 0x2029))

/-- The class `[\s\S]` (truly any character). -/
def rany : Reg := .cls (fun _ => true)

/-- The class `\s`. -/
def rws : Reg := .cls isJsSpace

/-- An explicit character class listing its members. -/
def rcls (s : String) : Reg := .cls (fun c => s.data.contains c)

/-- A character range such as `[a-z]`. -/
def rrange (lo hi : Char) : Reg := .cls (fun c => lo ≤ c && c ≤ hi)

/-- An unanchored case-insensitive JS regex (`/…/i`). -/
def ri (r : Reg) : JsRegex := { reg := r, ignoreCase := true }

/-- A start-anchored case-insensitive JS regex (`/^…/i`). -/
def riAnch (r : Reg) : JsRegex := { reg := r, anchoredStart := true, ignoreCase := true }

/-- A flagless unanchored JS regex. -/
def rplain (r : Reg) : JsRegex := { reg := r }

/-- The `Intent` union type of `src/ai/intent/inferIntent.ts`. -/
inductive Intent : Type where
  | architecture_update
  | cdk_generation
  | code_generation
  | code_explanation
  | architecture_explanation
  | architecture_rationale
  | system_design
  | comparison
  | question
  | greeting
  | general_chat
deriving DecidableEq, Repr

/-- The TS string literal naming each intent. -/
def Intent.toTsString : Intent → String
  | .architecture_update => "architecture_update"
  | .cdk_generation => "cdk_generation"
  | .code_generation => "code_generation"
  | .code_explanation => "code_explanation"
  | .architecture_explanation => "architecture_explanation"
  | .architecture_rationale => "architecture_rationale"
  | .system_design => "system_design"
  | .comparison => "comparison"
  | .question => "question"
  | .greeting => "greeting"
  | .general_chat => "general_chat"

/-- The `IntentRule` interface of `inferIntent.ts`. -/
structure IntentRule where
  intent : Intent
  patterns : List JsRegex
  keywordSets : Option (List (List String)) := none
  requiresContext : Bool := false
  weight : Nat

/-- `(the|this|my|our)` as capture group `n`. -/
def gTheThis (n : Nat) : Reg :=
  .grp n (ralt [rstr "the", rstr "this", rstr "my", rstr "our"])

/-- `(architecture|diagram|system)` as capture group `n`. -/
def gArchDiaSys (n : Nat) : Reg :=
  .grp n (ralt [rstr "architecture", rstr "diagram", rstr "system"])

/-- `(this|the|current|existing)` as capture group `n`. -/
def gThisCur (n : Nat) : Reg :=
  .grp n (ralt [rstr "this", rstr "the", rstr "current", rstr "existing"])

/-- `(architecture|design|system|diagram)` as capture group `n`. -/
def gArchDesign (n : Nat) : Reg :=
  .grp n (ralt [rstr "architecture", rstr "design", rstr "system", rstr "diagram"])

/-- `(architecture|diagram|system|design)` as capture group `n`. -/
def gArchDiaSysDes (n : Nat) : Reg :=
  .grp n (ralt [rstr "architecture", rstr "diagram", rstr "system", rstr "design"])

/-- `(code|function|class|module)` as capture group `n`. -/
def gCodeFn (n : Nat) : Reg :=
  .grp n (ralt [rstr "code", rstr "function", rstr "class", rstr "module"])

/-- `(cdk|cloud development kit)` as capture group `n`. -/
def gCdk (n : Nat) : Reg :=
  .grp n (ralt [rstr "cdk", rstr "cloud development kit"])

/-- The big alternation of rationale keywords in the
`architecture_rationale` patterns. -/
def gRationaleWords (n : Nat) : Reg :=
  .grp n (ralt [rstr "rationale", rstr "explanation", rstr "analysis",
    rstr "assessment", rstr "evaluation", rstr "review", rstr "breakdown",
    rstr "cost analysis", rstr "costing"])

/-- One `VERB.*(rationale|…).*(for|of|about).*(this|…).*(architecture|…)`
pattern of the `architecture_rationale` rule. -/
def rationaleProvideLike (verb : String) : JsRegex :=
  ri (rcat [rstr verb, rstar rdot, gRationaleWords 1, rstar rdot,
    .grp 2 (ralt [rstr "for", rstr "of", rstr "about"]), rstar rdot,
    gThisCur 3, rstar rdot, gArchDesign 4])

/-- One `VERB (the|this|my|our) (architecture|diagram|system)` pattern of
the `architecture_update` rule. -/
def archUpdatePattern (verb : String) : JsRegex :=
  ri (rcat [rstr verb, rchar ' ', gTheThis 1, rchar ' ', gArchDiaSys 2])

/-- One `VERB.*(cdk|cloud development kit).*(code|implementation)` pattern
of the `cdk_generation` rule. -/
def cdkVerbPattern (verb : String) : JsRegex :=
  ri (rcat [rstr verb, rstar rdot, gCdk 1, rstar rdot,
    .grp 2 (ralt [rstr "code", rstr "implementation"])])

/-- One `VERB.*(this|the).*(code|function|class|module)`‑shaped pattern of
the `code_explanation` rule. -/
def codeExplainPattern (verb : String) : JsRegex :=
  ri (rcat [rstr verb, rstar rdot, .grp 1 (ralt [rstr "this", rstr "the"]),
    rstar rdot, gCodeFn 2])

/-- One `VERB.*(this|the).*(architecture|diagram|system|design)`‑shaped
pattern of the `architecture_explanation` rule. -/
def archExplainPattern (verb : String) : JsRegex :=
  ri (rcat [rstr verb, rstar rdot, .grp 1 (ralt [rstr "this", rstr "the"]),
    rstar rdot, gArchDiaSysDes 2])

/-- The ordered rule list `intentRules` of `inferIntent.ts`, with every
regex transliterated into the `Reg` syntax. -/
def intentRules : List IntentRule := [
  { intent := .greeting,
    patterns := [riAnch (.grp 1 (ralt [rstr "hi", rstr "hello", rstr "hey",
      rstr "greetings", rstr "howdy",
      rcat [rstr "good ", .grp 2 (ralt [rstr "morning", rstr "afternoon", rstr "evening"])],
      rcat [rstr "what", ropt (rchar apoc), rstr "s up"]]))],
    weight := 10 },
  { intent := .architecture_update,
    patterns := [archUpdatePattern "update",
      ri (rcat [rstr "add ", rplus rdot, rstr " to ", gTheThis 1, rchar ' ', gArchDiaSys 2]),
      archUpdatePattern "modify", archUpdatePattern "change", archUpdatePattern "redesign"],
    keywordSets := some [["add", "architecture"], ["update", "architecture"],
      ["modify", "architecture"], ["change", "architecture"], ["redesign", "architecture"]],
    requiresContext := true,
    weight := 90 },
  { intent := .architecture_rationale,
    patterns := [rationaleProvideLike "provide", rationaleProvideLike "generate",
      ri (rcat [rstr "explain", rstar rdot,
        .grp 1 (ralt [rstr "rationale", rstr "reasoning", rstr "thinking", rstr "logic",
          rstr "decision", rcat [rstr "cost", ropt (rchar 's')], rstr "pricing"]),
        rstar rdot, .grp 2 (ralt [rstr "behind", rstr "for", rstr "of"]), rstar rdot,
        gThisCur 3, rstar rdot, gArchDesign 4]),
      ri (rcat [.grp 1 (ralt [rstr "analyze", rstr "assess", rstr "evaluate", rstr "review"]),
        rstar rdot, gThisCur 2, rstar rdot, gArchDesign 3]),
      ri (rcat [rstr "what", .grp 1 (ralt [rcat [rchar apoc, rchar 's'], rstr " is", rstr " are"]),
        rstar rdot, .grp 2 (rstr "the"), rstar rdot,
        .grp 3 (ralt [rcat [rstr "cost", ropt (rchar 's')], rstr "pricing",
          rcat [rstr "expense", ropt (rchar 's')], rstr "budget"]),
        rstar rdot, .grp 4 (ralt [rstr "of", rstr "for"]), rstar rdot,
        gThisCur 5, rstar rdot, gArchDesign 6]),
      ri (rcat [rstr "how much", rstar rdot,
        .grp 1 (ralt [rstr "would", rstr "does", rstr "will"]), rstar rdot,
        gThisCur 2, rstar rdot, gArchDesign 3, rstar rdot, .grp 4 (rstr "cost")]),
      ri (rcat [rstr "break down", rstar rdot,
        .grp 1 (ralt [rstr "this", rstr "the", rstr "current"]), rstar rdot, gArchDesign 2])],
    keywordSets := some [["rationale", "architecture"], ["explain", "architecture"],
      ["analyze", "architecture"], ["cost", "architecture"], ["costs", "architecture"],
      ["pricing", "architecture"], ["evaluation", "architecture"],
      ["breakdown", "architecture"], ["analysis", "architecture"],
      ["assessment", "architecture"]],
    requiresContext := true,
    weight := 85 },
  { intent := .cdk_generation,
    patterns := [cdkVerbPattern "generate", cdkVerbPattern "create", cdkVerbPattern "write",
      ri (rcat [rstr "implement", rstar rdot,
        .grp 1 (ralt [rstr "architecture", rstr "diagram", rstr "design"]), rstar rdot,
        .grp 2 (ralt [rstr "using", rstr "with", rstr "in"]), rstar rdot, gCdk 3]),
      ri (rcat [rstr "convert", rstar rdot,
        .grp 1 (ralt [rstr "architecture", rstr "diagram", rstr "design"]), rstar rdot,
        .grp 2 (ralt [rstr "to", rstr "into"]), rstar rdot, gCdk 3])],
    keywordSets := some [["generate", "cdk"], ["create", "cdk"], ["write", "cdk"],
      ["implement", "cdk"], ["convert", "cdk"]],
    requiresContext := true,
    weight := 100 },
  { intent := .code_generation,
    patterns := [ri (rcat [rstr "generate", rstar rdot, gCodeFn 1]),
      ri (rcat [rstr "write", rstar rdot, gCodeFn 1]),
      ri (rcat [rstr "create", rstar rdot, gCodeFn 1]),
      ri (rcat [rstr "implement", rstar rdot, .grp 1 (ralt [rstr "in", rstr "using"]),
        rstar rdot, .grp 2 (ralt [rstr "javascript", rstr "typescript", rstr "python",
          rstr "java", rstr "c#", rstr "go"])]),
      ri (rcat [rstr "code", rstar rdot, .grp 1 (ralt [rstr "for", rstr "that"]),
        rstar rdot, .grp 2 (ralt [rstr "does", rstr "performs", rstr "handles",
          rstr "implements"])])],
    keywordSets := some [["generate", "code"], ["write", "code"], ["create", "code"],
      ["implement", "function"], ["code", "for"]],
    weight := 80 },
  { intent := .code_explanation,
    patterns := [codeExplainPattern "explain",
      ri (rcat [rstr "how", rstar rdot, .grp 1 (ralt [rstr "does", rstr "do"]), rstar rdot,
        .grp 2 (ralt [rstr "this", rstr "the"]), rstar rdot, gCodeFn 3, rstar rdot,
        .grp 4 (ralt [rstr "work", rstr "function"])]),
      ri (rcat [rstr "what", rstar rdot, .grp 1 (ralt [rstr "does", rstr "do"]), rstar rdot,
        .grp 2 (ralt [rstr "this", rstr "the"]), rstar rdot, gCodeFn 3, rstar rdot,
        .grp 4 (ralt [rstr "do", rstr "mean"])]),
      codeExplainPattern "understand", codeExplainPattern "analyze"],
    keywordSets := some [["explain", "code"], ["how", "code", "work"],
      ["what", "code", "do"], ["understand", "code"], ["analyze", "code"]],
    weight := 70 },
  { intent := .architecture_explanation,
    patterns := [archExplainPattern "explain",
      ri (rcat [rstr "how", rstar rdot, .grp 1 (ralt [rstr "does", rstr "do"]), rstar rdot,
        .grp 2 (ralt [rstr "this", rstr "the"]), rstar rdot, gArchDiaSysDes 3, rstar rdot,
        .grp 4 (ralt [rstr "work", rstr "function"])]),
      ri (rcat [rstr "what", rstar rdot, .grp 1 (ralt [rstr "does", rstr "do"]), rstar rdot,
        .grp 2 (ralt [rstr "this", rstr "the"]), rstar rdot, gArchDiaSysDes 3, rstar rdot,
        .grp 4 (ralt [rstr "do", rstr "mean"])]),
      archExplainPattern "understand", archExplainPattern "analyze"],
    keywordSets := some [["explain", "architecture"], ["how", "architecture", "work"],
      ["what", "architecture", "do"], ["understand", "architecture"],
      ["analyze", "architecture"]],
    requiresContext := true,
    weight := 75 },
  { intent := .system_design,
    patterns := [ri (rcat [rstr "design", rstar rdot, .grp 1 (ralt [rstr "a", rstr "an"]),
        rstar rdot, .grp 2 (ralt [rstr "architecture", rstr "system", rstr "solution"])]),
      ri (rcat [rstr "create", rstar rdot, .grp 1 (ralt [rstr "a", rstr "an"]), rstar rdot,
        .grp 2 (ralt [rstr "architecture", rstr "system", rstr "solution"]), rstar rdot,
        .grp 3 (ralt [rstr "for", rstr "that"])]),
      ri (rcat [rstr "architect", rstar rdot, .grp 1 (ralt [rstr "a", rstr "an"]), rstar rdot,
        .grp 2 (ralt [rstr "system", rstr "solution"]), rstar rdot,
        .grp 3 (ralt [rstr "for", rstr "that"])]),
      ri (rcat [rstr "how", rstar rdot,
        .grp 1 (ralt [rstr "would", rstr "should", rstr "could"]), rstar rdot,
        .grp 2 (ralt [rstr "you", rstr "we", rstr "i"]), rstar rdot,
        .grp 3 (ralt [rstr "architect", rstr "design", rstr "build", rstr "create"]),
        rstar rdot, .grp 4 (ralt [rstr "a", rstr "an"]), rstar rdot,
        .grp 5 (ralt [rstr "system", rstr "solution"])]),
      ri (rcat [rstr "what", rstar rdot,
        .grp 1 (ralt [rstr "architecture", rstr "system", rstr "solution"]), rstar rdot,
        .grp 2 (ralt [rstr "would", rstr "should", rstr "could"]), rstar rdot,
        .grp 3 (ralt [rstr "you", rstr "we", rstr "i"]), rstar rdot,
        .grp 4 (ralt [rstr "use", rstr "implement", rstr "create"]), rstar rdot,
        .grp 5 (ralt [rstr "for", rstr "to"])])],
    keywordSets := some [["design", "architecture"], ["create", "system"],
      ["architect", "solution"], ["how", "design", "system"],
      ["what", "architecture", "use"]],
    weight := 85 },
  { intent := .comparison,
    patterns := [ri (rcat [rstr "compare", rstar rdot,
        .grp 1 (ralt [rstr "between", rstr "with", rstr "and"])]),
      ri (rcat [rstr "difference", rstar rdot,
        .grp 1 (ralt [rstr "between", rstr "with", rstr "and"])]),
      ri (rcat [rstr "similarities", rstar rdot,
        .grp 1 (ralt [rstr "between", rstr "with", rstr "and"])]),
      ri (rcat [rstr "pros", rstar rdot, .grp 1 (rstr "and"), rstar rdot,
        .grp 2 (ralt [rstr "cons", rstr "benefits", rstr "advantages", rstr "disadvantages"])]),
      ri (rcat [rstr "better", rstar rdot,
        .grp 1 (ralt [rstr "option", rstr "choice", rstr "alternative", rstr "approach"])]),
      ri (rcat [rstr "which", rstar rdot, .grp 1 (ralt [rstr "is", rstr "are"]), rstar rdot,
        .grp 2 (ralt [rstr "better", rstr "best", rstr "optimal", rstr "preferred"])])],
    keywordSets := some [["compare"], ["difference", "between"], ["similarities"],
      ["pros", "cons"], ["better", "option"], ["which", "better"]],
    weight := 60 },
  { intent := .question,
    patterns := [riAnch (.grp 1 (ralt [rstr "what", rstr "how", rstr "why", rstr "when",
        rstr "where", rstr "who", rstr "which", rstr "can", rstr "could", rstr "would",
        rstr "should", rstr "is", rstr "are", rstr "do", rstr "does", rstr "did",
        rstr "has", rstr "have", rstr "had"])),
      rplain (rcat [rchar '?', ropt (.grp 1 (rstar rdot)), .eos])],
    weight := 20 },
  { intent := .general_chat,
    patterns := [rplain (rplus rdot)],
    weight := 1 }]

/-- An entry of the `matches` array built inside `inferIntent`. -/
structure IMatch where
  intent : Intent
  weight : Nat
deriving DecidableEq, Repr

/-- The keyword-set test of `inferIntent`: with no `keywordSets` the rule
passes; otherwise some set must have all its keywords contained
case-insensitively in the message. -/
def ruleKeywordsMatch (message : String) (rule : IntentRule) : Bool :=
  match rule.keywordSets with
  | none => true
  | some sets => sets.any (fun set =>
      set.all (fun kw => containsSub (lowerL kw.data) (lowerL message.data)))

/-- The pattern test of `inferIntent`: any pattern match counts. -/
def rulePatternsMatch (message : String) (rule : IntentRule) : Bool :=
  rule.patterns.any (fun p => jsTest p message)

/-- The `matches` array collected by the rule loop of `inferIntent`. -/
def intentMatches (message : String) (hasArchitectureContext : Bool) : List IMatch :=
  intentRules.filterMap (fun rule =>
    if rule.requiresContext && !hasArchitectureContext then none
    else if rulePatternsMatch message rule && ruleKeywordsMatch message rule then
      some { intent := rule.intent, weight := rule.weight }
    else none)

/-- The comparator `(a, b) => b.weight - a.weight` of `inferIntent`,
as the (pre)order it sorts by: `a` may stay before `b` iff
`b.weight ≤ a.weight` (descending weight).  `Array.prototype.sort` is
stable, and a stable sort for a total preorder has a unique result, so
`List.insertionSort` with this relation is exactly the JS sort. -/
def byWeightDesc (a b : IMatch) : Prop := b.weight ≤ a.weight

instance : DecidableRel byWeightDesc := fun a b => Nat.decLe b.weight a.weight

/-- `inferIntent` of `src/ai/intent/inferIntent.ts`: collect the matching
rules, sort by descending weight, return the first intent, or
`general_chat` when nothing matched. -/
def inferIntent (message : String) (hasArchitectureContext : Bool) : Intent :=
  let ms := intentMatches message hasArchitectureContext
  match (ms.insertionSort byWeightDesc).head? with
  | some m => m.intent
  | none => Intent.general_chat

/-- `isGreeting` of `inferIntent.ts` (the TS default
`hasArchitectureContext = false` applies). -/
def isGreeting (message : String) : Bool := inferIntent message false == Intent.greeting

/-- Specification-side selection, written from the claim: the earliest
element of greatest weight, scanning left to right and replacing the
current best only on a strictly greater weight. -/
def pickBest : List IMatch → Option IMatch
  | [] => none
  | x :: xs =>
    match pickBest xs with
    | none => some x
    | some y => some (if x.weight < y.weight then y else x)

/-- Specification-side `inferIntent`, phrased as the claim phrases it: among
the rules that are not skipped for lack of context and that match (some
pattern matches, and some keyword set — when sets are given — is wholly
present), take the one of greatest weight, ties resolved in favour of the
earlier rule; `general_chat` when no rule matches. -/
def inferIntentSpec (message : String) (hasArchitectureContext : Bool) : Intent :=
  let eligible := intentRules.filter (fun rule =>
    (!(rule.requiresContext && !hasArchitectureContext)) &&
    rulePatternsMatch message rule && ruleKeywordsMatch message rule)
  match pickBest (eligible.map (fun r => { intent := r.intent, weight := r.weight })) with
  | some m => m.intent
  | none => Intent.general_chat

/-- First block of `detectProgrammingLanguage`: substring-style language
regexes, tried in source order on the lower-cased message. -/
def langFirstBlock : List (Reg × String) := [
  (ralt [rstr "python", rstr "boto3", rstr "django", rstr "flask", rstr "pandas",
    rstr "numpy", rstr "pip", rstr ".py"], "python"),
  (ralt [rstr "typescript", rstr "ts", rstr "angular", rstr "vue", rstr "react",
    rstr ".ts"], "typescript"),
  (ralt [rstr "javascript", rstr "js", rstr "node", rstr "express", rstr ".js"],
    "javascript"),
  (ralt [rstr "java", rstr "spring", rstr "maven", rstr "gradle", rstr ".java"], "java"),
  (ralt [rstr "c#", rstr ".net", rstr "asp.net", rstr "azure", rstr ".cs"], "csharp"),
  (ralt [rstr "golang", rcat [rstr "go", rplus rws, rstr "lang"], rstr ".go"], "go"),
  (ralt [rstr "rust", rstr "cargo", rstr ".rs"], "rust"),
  (ralt [rstr "ruby", rstr "rails", rstr ".rb"], "ruby"),
  (ralt [rstr "php", rstr "laravel", rstr "symfony", rstr ".php"], "php"),
  (ralt [rstr "yaml", rstr "yml"], "yaml"),
  (ralt [rstr "bash", rstr "shell", rstr "sh", rstr "command line", rstr "terminal"],
    "bash")]

/-- Second block of `detectProgrammingLanguage`: the explicit
`\b(?:in|using|with)\s+LANG\b` mentions, tried in source order. -/
def langSecondBlock : List (Reg × String) :=
  [("python", "python"), ("typescript", "typescript"), ("javascript", "javascript"),
   ("java", "java"), ("c#", "csharp"), ("go", "go"), ("rust", "rust"),
   ("ruby", "ruby"), ("php", "php")].map (fun p =>
    (rcat [ralt [rstr "in", rstr "using", rstr "with"], rplus rws, rstr p.1], p.2))

/-- `cdkGenerationPatterns` of `inferIntent.ts`. -/
def cdkGenerationPatterns : List Reg :=
  [ralt [rstr "cdk", rstr "cloud development kit"],
   rstr "infrastructure as code", rstr "iac", rstr "cloudformation"]

/-- Unanchored test of a plain regex on a character list. -/
def testR (r : Reg) (s : List Char) : Bool := (searchFrom r 0 s).isSome

/-- `detectProgrammingLanguage` of `inferIntent.ts` (`none` models the TS
`null`).  All regexes are applied to the lower-cased message, as in the
source (their `i` flags are then irrelevant). -/
def detectProgrammingLanguage (message : String) : Option String :=
  let lm := lowerL message.data
  match (langFirstBlock.find? (fun p => testR p.1 lm)).map (·.2) with
  | some l => some l
  | none =>
    match (langSecondBlock.find? (fun p => testWB p.1 lm)).map (·.2) with
    | some l => some l
    | none =>
      if cdkGenerationPatterns.any (fun r => testR r lm) then some "typescript"
      else none

/-- The `EnhancedIntentMatch` interface of `jarvis-integration.ts`.
Confidence is modelled as a rational (the source uses JS numbers; only
subtractions of decimal constants occur). -/
structure EnhancedIntentMatch where
  intentType : Intent
  confidence : ℚ
  subType : Option String := none
  entities : Option (List (String × String)) := none
  trigger : Option String := none
deriving DecidableEq, Repr

/-- One entry of the `architectureIntents` table of `jarvis-integration.ts`. -/
structure ArchIntentPattern where
  pattern : JsRegex
  subType : String
  entityKeys : List String

/-- The character class `[A-Za-z0-9\s]`. -/
def alnumSpaceCls : Reg :=
  .cls (fun c => ('a' ≤ c && c ≤ 'z') || ('A' ≤ c && c ≤ 'Z') ||
    ('0' ≤ c && c ≤ '9') || isJsSpace c)

/-- `(?:the|a|an)?\s*` (also used as `(?:a|an)?\s*`). -/
def optArticle (l : List String) : Reg := rcat [ropt (ralt (l.map rstr)), rstar rws]

/-- An unanchored case-insensitive JS regex carrying its
`RegExp.prototype.toString()` text. -/
def riSrc (r : Reg) (src : String) : JsRegex :=
  { reg := r, ignoreCase := true, source := src }

/-- The `architectureIntents` table of `jarvis-integration.ts` (patterns
transliterated; `source` carries the `RegExp.prototype.toString()` text
used for the `trigger` field). -/
def architectureIntents : List ArchIntentPattern := [
  { pattern := riSrc (rcat [ralt [rstr "add", rstr "include", rstr "incorporate"],
      rplus rws, optArticle ["a", "an"], .grp 1 (rplus alnumSpaceCls),
      ropt (ralt [rcat [rplus rws, rstr "to"], rcat [rplus rws, rstr "in"],
        rcat [rplus rws, rstr "into"], rcat [rplus rws, rstr "for"]])])
      "/(?:add|include|incorporate)\\s+(?:a|an)?\\s*([A-Za-z0-9\\s]+)(?:\\s+to|\\s+in|\\s+into|\\s+for)?/i",
    subType := "add_service", entityKeys := ["serviceName"] },
  { pattern := riSrc (rcat [ralt [rstr "remove", rstr "delete", rstr "exclude"],
      rplus rws, optArticle ["the", "a", "an"], .grp 1 (rplus alnumSpaceCls),
      ropt (ralt [rcat [rplus rws, rstr "from"], rcat [rplus rws, rstr "in"]]),
      rstar rws, ropt (ralt [rstr "the", rstr "my", rstr "our"]), rstar rws,
      ropt (ralt [rstr "architecture", rstr "system", rstr "diagram", rstr "project"])])
      "/(?:remove|delete|exclude)\\s+(?:the|a|an)?\\s*([A-Za-z0-9\\s]+)(?:\\s+from|\\s+in)?\\s*(?:the|my|our)?\\s*(?:architecture|system|diagram|project)?/i",
    subType := "remove_service", entityKeys := ["serviceName"] },
  { pattern := riSrc (rcat [ralt [rstr "connect", rstr "link", rstr "integrate"],
      rplus rws, optArticle ["the", "a", "an"], .grp 1 (rplus alnumSpaceCls),
      rplus rws, ralt [rstr "to", rstr "with", rstr "and"], rplus rws,
      optArticle ["the", "a", "an"], .grp 2 (rplus alnumSpaceCls)])
      "/(?:connect|link|integrate)\\s+(?:the|a|an)?\\s*([A-Za-z0-9\\s]+)\\s+(?:to|with|and)\\s+(?:the|a|an)?\\s*([A-Za-z0-9\\s]+)/i",
    subType := "connect_services", entityKeys := ["sourceService", "targetService"] },
  { pattern := riSrc (rcat [ralt [rstr "edit", rstr "modify", rstr "change", rstr "update"],
      rplus rws, optArticle ["the", "a", "an"], .grp 1 (rplus alnumSpaceCls)])
      "/(?:edit|modify|change|update)\\s+(?:the|a|an)?\\s*([A-Za-z0-9\\s]+)/i",
    subType := "edit_service", entityKeys := ["serviceName"] }]

/-- `match[g]?.trim() || ''` for capture group `g` of the leftmost match of
`p` in `message`. -/
def groupTextOrEmpty (p : JsRegex) (g : Nat) (message : String) : String :=
  (((jsMatchGroup p g message).getD none).map jsTrim).getD ""

/-- `adjustIntentConfidence` of `jarvis-integration.ts` (mutates the
confidence; modelled as a functional update). -/
def adjustIntentConfidence (e : EnhancedIntentMatch) (message : String) :
    EnhancedIntentMatch :=
  let c1 := if jsIncludes message "?" && e.intentType != Intent.question then
    e.confidence - 15/100 else e.confidence
  let c2 := if (jsIncludes message "code" || jsIncludes message "script" ||
      jsIncludes message "snippet") &&
      e.intentType != Intent.code_generation && e.intentType != Intent.cdk_generation then
    c1 - 1/10 else c1
  let c3 := if containsSub "cdk".data (lowerL message.data) &&
      e.intentType != Intent.cdk_generation then c2 - 2/10 else c2
  let c4 := if e.intentType == Intent.architecture_update && message.length < 15 then
    c3 - 3/10 else c3
  { e with confidence := c4 }

/-- `detectEnhancedIntent` of `jarvis-integration.ts`: `inferIntent` as the
primary classifier, then (for `architecture_update` only) sub-type and
entity extraction from the first matching `architectureIntents` pattern,
then the confidence adjustment. -/
def detectEnhancedIntent (message : String) (hasArchitecture : Bool) :
    EnhancedIntentMatch :=
  let primaryIntent := inferIntent message hasArchitecture
  let base : EnhancedIntentMatch := { intentType := primaryIntent, confidence := 9/10 }
  let enhanced :=
    if primaryIntent == Intent.architecture_update then
      match architectureIntents.find? (fun ai => jsTest ai.pattern message) with
      | some ai =>
        { base with
          subType := some ai.subType,
          entities := some (ai.entityKeys.enum.map (fun p =>
            (p.2, groupTextOrEmpty ai.pattern (p.1 + 1) message))),
          trigger := some ai.pattern.source }
      | none => base
    else base
  adjustIntentConfidence enhanced message

/-- JSON values as produced by `JSON.parse`.  Numeric literals are kept
verbatim (`num` stores the lexeme): none of the embedded code computes
with numbers parsed out of JSON, it only restructures and re-serializes
them. -/
inductive Json : Type where
  | null : Json
  | bool : Bool → Json
  | num : String → Json
  | str : String → Json
  | arr : List Json → Json
  | obj : List (String × Json) → Json
deriving BEq, Repr

/-- JSON whitespace (exactly space, tab, line feed, carriage return). -/
def isJsonWs (c : Char) : Bool :=
  c == ' ' || c == '\t' || c == '\n' || c == '\r'

/-- Skip JSON whitespace. -/
def skipWs (s : List Char) : List Char := s.dropWhile isJsonWs

/-- Value of a hexadecimal digit. -/
def hexVal (c : Char) : Nat :=
  if c.isDigit then c.toNat - 48
  else if 'a' ≤ c && c ≤ 'f' then c.toNat - 87
  else if 'A' ≤ c && c ≤ 'F' then c.toNat - 55
  else 0

/-- Is `c` a hexadecimal digit? -/
def isHexDigitC (c : Char) : Bool :=
  c.isDigit || ('a' ≤ c && c ≤ 'f') || ('A' ≤ c && c ≤ 'F')

/-- Parse the body of a JSON string after the opening quote; returns the
decoded content and the input after the closing quote. -/
def parseStringBody : List Char → Option (List Char × List Char)
  | [] => none
  | '"' :: rest => some ([], rest)
  | '\\' :: esc =>
    match esc with
    | [] => none
    | c :: rest =>
      match c with
      | '"' => (parseStringBody rest).map (fun p => ('"' :: p.1, p.2))
      | '\\' => (parseStringBody rest).map (fun p => ('\\' :: p.1, p.2))
      | '/' => (parseStringBody rest).map (fun p => ('/' :: p.1, p.2))
      | 'b' => (parseStringBody rest).map (fun p => (Char.ofNat 8 :: p.1, p.2))
      | 'f' => (parseStringBody rest).map (fun p => (Char.ofNat 12 :: p.1, p.2))
      | 'n' => (parseStringBody rest).map (fun p => ('\n' :: p.1, p.2))
      | 'r' => (parseStringBody rest).map (fun p => ('\r' :: p.1, p.2))
      | 't' => (parseStringBody rest).map (fun p => ('\t' :: p.1, p.2))
      | 'u' =>
        match rest with
        | h1 :: h2 :: h3 :: h4 :: rest1 =>
          if isHexDigitC h1 && isHexDigitC h2 && isHexDigitC h3 && isHexDigitC h4 then
            let v := 4096 * hexVal h1 + 256 * hexVal h2 + 16 * hexVal h3 + hexVal h4
            (parseStringBody rest1).map (fun p => (Char.ofNat v :: p.1, p.2))
          else none
        | _ => none
      | _ => none
  | c :: rest =>
    if c.toNat < 32 then none
    else (parseStringBody rest).map (fun p => (c :: p.1, p.2))

/-- One or more decimal digits. -/
def takeDigits1 (s : List Char) : Option (List Char × List Char) :=
  match s.span Char.isDigit with
  | (ds, rest) => if ds.isEmpty then none else some (ds, rest)

/-- Lex a JSON numeric literal (`-?(0|[1-9][0-9]*)(\.[0-9]+)?([eE][+-]?[0-9]+)?`),
returning the lexeme. -/
def lexNumber (s : List Char) : Option (List Char × List Char) :=
  let afterSign : List Char × List Char :=
    match s with
    | '-' :: t => (['-'], t)
    | _ => ([], s)
  match takeDigits1 afterSign.2 with
  | none => none
  | some (intDs, r1) =>
    if intDs.length > 1 && intDs.headD '0' == '0' then none
    else
      let fracPart : Option (List Char × List Char) :=
        match r1 with
        | '.' :: t => (takeDigits1 t).map (fun p => ('.' :: p.1, p.2))
        | _ => some ([], r1)
      match fracPart with
      | none => none
      | some (frac, r2) =>
        let expPart : Option (List Char × List Char) :=
          match r2 with
          | 'e' :: t =>
            match t with
            | '+' :: t1 => (takeDigits1 t1).map (fun p => ('e' :: '+' :: p.1, p.2))
            | '-' :: t1 => (takeDigits1 t1).map (fun p => ('e' :: '-' :: p.1, p.2))
            | _ => (takeDigits1 t).map (fun p => ('e' :: p.1, p.2))
          | 'E' :: t =>
            match t with
            | '+' :: t1 => (takeDigits1 t1).map (fun p => ('E' :: '+' :: p.1, p.2))
            | '-' :: t1 => (takeDigits1 t1).map (fun p => ('E' :: '-' :: p.1, p.2))
            | _ => (takeDigits1 t).map (fun p => ('E' :: p.1, p.2))
          | _ => some ([], r2)
        match expPart with
        | none => none
        | some (ex, r3) => some (afterSign.1 ++ intDs ++ frac ++ ex, r3)


mutual

/-- Parse one JSON value (leading whitespace allowed); `fuel` bounds the
nesting depth and `input length + 1` always suffices, since every nesting
level consumes at least one character. -/
def parseValue (fuel : Nat) (s : List Char) : Option (Json × List Char) :=
  match fuel with
  | 0 => none
  | fuel1 + 1 =>
    match skipWs s with
    | [] => none
    | c :: t =>
      if c == '"' then
        (parseStringBody t).map (fun p => (Json.str (String.mk p.1), p.2))
      else if c == '[' then
        parseArrayItems fuel1 t true
      else if c == '\x7b' then
        parseObjItems fuel1 t true
      else if hasPfx "true".data (c :: t) then
        some (Json.bool true, (c :: t).drop 4)
      else if hasPfx "false".data (c :: t) then
        some (Json.bool false, (c :: t).drop 5)
      else if hasPfx "null".data (c :: t) then
        some (Json.null, (c :: t).drop 4)
      else
        (lexNumber (c :: t)).map (fun p => (Json.num (String.mk p.1), p.2))

/-- Parse the items of an array after the opening bracket; `first` is true
before the first item (where `]` is allowed without a preceding comma). -/
def parseArrayItems (fuel : Nat) (s : List Char) (first : Bool) :
    Option (Json × List Char) :=
  match fuel with
  | 0 => none
  | fuel1 + 1 =>
    match skipWs s with
    | ']' :: t => if first then some (Json.arr [], t) else none
    | s1 =>
      match parseValue fuel1 s1 with
      | none => none
      | some (v, r) =>
        match skipWs r with
        | ',' :: t =>
          match parseArrayItems fuel1 t false with
          | some (Json.arr vs, r2) => some (Json.arr (v :: vs), r2)
          | _ => none
        | ']' :: t => some (Json.arr [v], t)
        | _ => none

/-- Parse the members of an object after the opening brace. -/
def parseObjItems (fuel : Nat) (s : List Char) (first : Bool) :
    Option (Json × List Char) :=
  match fuel with
  | 0 => none
  | fuel1 + 1 =>
    match skipWs s with
    | '\x7d' :: t => if first then some (Json.obj [], t) else none
    | '"' :: t =>
      match parseStringBody t with
      | none => none
      | some (key, r) =>
        match skipWs r with
        | ':' :: r1 =>
          match parseValue fuel1 r1 with
          | none => none
          | some (v, r2) =>
            match skipWs r2 with
            | ',' :: r3 =>
              match parseObjItems fuel1 r3 false with
              | some (Json.obj fs, r4) =>
                some (Json.obj ((String.mk key, v) :: fs), r4)
              | _ => none
            | '\x7d' :: r3 => some (Json.obj [(String.mk key, v)], r3)
            | _ => none
        | _ => none
    | _ => none

end

/-- Models `JSON.parse` (as an `Option` instead of a thrown
`SyntaxError`): parse one value and require only whitespace after it. -/
def jsonParse (s : String) : Option Json :=
  match parseValue (s.data.length + 1) s.data with
  | some (v, rest) => if (skipWs rest).isEmpty then some v else none
  | none => none

/-- Field lookup on a JSON object (`undefined` is `none`); on the
duplicate-key fringe JS keeps the last value, hence the reversed find. -/
def Json.get? : Json → String → Option Json
  | .obj fs, key => ((fs.reverse).find? (fun p => p.1 == key)).map (·.2)
  | _, _ => none

/-- `Array.isArray`. -/
def Json.isArr : Json → Bool
  | .arr _ => true
  | _ => false

/-- Escape a string for JSON output, as `JSON.stringify` does. -/
def jsonEscapeChar (c : Char) : List Char :=
  if c == '"' then ['\\', '"']
  else if c == '\\' then ['\\', '\\']
  else if c == '\n' then ['\\', 'n']
  else if c == '\r' then ['\\', 'r']
  else if c == '\t' then ['\\', 't']
  else if c == Char.ofNat 8 then ['\\', 'b']
  else if c == Char.ofNat 12 then ['\\', 'f']
  else if c.toNat < 32 then
    let h := fun (n : Nat) => if n < 10 then Char.ofNat (48 + n) else Char.ofNat (87 + n - 10)
    ['\\', 'u', '0', '0', h (c.toNat / 16), h (c.toNat % 16)]
  else [c]

/-- Quote and escape a string for JSON output. -/
def jsonQuote (s : String) : String :=
  String.mk ('"' :: s.data.flatMap jsonEscapeChar ++ ['"'])

mutual

/-- `JSON.stringify(j, null, 2)` at current indentation `ind`. -/
def jsonStringify2 (ind : String) (j : Json) : String :=
  match j with
  | .null => "null"
  | .bool b => if b then "true" else "false"
  | .num lx => lx
  | .str s => jsonQuote s
  | .arr items =>
    match items with
    | [] => "[]"
    | _ :: _ => "[\n" ++ jsonItems2 (ind ++ "  ") items ++ "\n" ++ ind ++ "]"
  | .obj fields =>
    match fields with
    | [] => "\x7b\x7d"
    | _ :: _ => "\x7b\n" ++ jsonFields2 (ind ++ "  ") fields ++ "\n" ++ ind ++ "\x7d"

/-- Array items, one per line at indentation `ind`, comma-separated. -/
def jsonItems2 (ind : String) (items : List Json) : String :=
  match items with
  | [] => ""
  | [x] => ind ++ jsonStringify2 ind x
  | x :: xs => ind ++ jsonStringify2 ind x ++ ",\n" ++ jsonItems2 ind xs

/-- Object members, one per line at indentation `ind`, comma-separated. -/
def jsonFields2 (ind : String) (fs : List (String × Json)) : String :=
  match fs with
  | [] => ""
  | [f] => ind ++ jsonQuote f.1 ++ ": " ++ jsonStringify2 ind f.2
  | f :: rest =>
    ind ++ jsonQuote f.1 ++ ": " ++ jsonStringify2 ind f.2 ++ ",\n" ++ jsonFields2 ind rest

end

/-- `JSON.stringify(j, null, 2)`. -/
def jsonStringifyPretty (j : Json) : String := jsonStringify2 "" j

/-- Is a JSON numeric lexeme the number zero? -/
def numIsZero (lx : String) : Bool :=
  (lx.data.takeWhile (fun c => !(c == 'e' || c == 'E'))).all
    (fun c => c == '0' || c == '-' || c == '.')

/-- JS truthiness of an optional JSON value (`none` models `undefined`). -/
def jsTruthy : Option Json → Bool
  | none => false
  | some .null => false
  | some (.bool b) => b
  | some (.str s) => !(s == "")
  | some (.num lx) => !(numIsZero lx)
  | some (.arr _) => true
  | some (.obj _) => true

mutual

/-- JS template-literal display of a JSON value (`${x}`). -/
def jsDisplayJ : Json → String
  | .null => "null"
  | .bool b => if b then "true" else "false"
  | .num lx => lx
  | .str s => s
  | .arr items => jsDisplayItems items
  | .obj _ => "[object Object]"

/-- JS `Array.prototype.toString`: elements joined with commas, `null`
displayed as the empty string. -/
def jsDisplayItems : List Json → String
  | [] => ""
  | [x] => match x with | .null => "" | _ => jsDisplayJ x
  | x :: xs =>
    (match x with | .null => "" | _ => jsDisplayJ x) ++ "," ++ jsDisplayItems xs

end

/-- JS template-literal display of a possibly-undefined value. -/
def jsDisplay : Option Json → String
  | none => "undefined"
  | some j => jsDisplayJ j

/-- Metadata of a stored architecture (the named optional fields the code
reads or writes; TS also allows arbitrary extra keys, none of which the
embedded code touches). -/
structure ArchMetadata where
  prompt : Option String := none
  rationale : Option String := none
  cdkCode : Option String := none
  cdkLanguage : Option String := none
  timestamp : Option String := none
  lastEditedAt : Option String := none
  lastEditedBy : Option String := none
deriving DecidableEq, Repr

/-- The `Architecture` / `ArchitectureContext` interfaces: untyped node and
edge arrays (`any[]`, modelled as JSON values) plus optional metadata. -/
structure Architecture where
  nodes : List Json
  edges : List Json
  metadata : Option ArchMetadata := none
deriving BEq, Repr

/-- `ArchitectureContext` of `contextManager.ts` has the same shape. -/
abbrev ArchitectureContext := Architecture

/-- The `ContextLevel` union type of `contextManager.ts`. -/
inductive ContextLevel : Type where
  | none
  | minimal
  | summary
  | full
deriving DecidableEq, Repr

/-- `getContextLevelForIntent` of `contextManager.ts`.  Note that
`architecture_rationale` is not listed in the TS `switch` and therefore
falls through to the `default` branch. -/
def getContextLevelForIntent : Intent → ContextLevel
  | .architecture_update => .full
  | .cdk_generation => .full
  | .code_generation => .summary
  | .code_explanation => .summary
  | .system_design => .summary
  | .architecture_explanation => .minimal
  | .comparison => .minimal
  | .question => .minimal
  | _ => .none

/-- `node.data.FIELD` (conflating JS `undefined` propagation and the
member-access type error into `none`). -/
def nodeDataField (n : Json) (f : String) : Option Json :=
  (n.get? "data").bind (fun d => d.get? f)

/-- JS strict equality `===` restricted to the id/source/target fields the
code compares (undefined equals undefined). -/
def jsStrictEq : Option Json → Option Json → Bool
  | none, none => true
  | some a, some b => a == b
  | _, _ => false

/-- One line of the services summary:
`SERVICE (LABEL): DESCRIPTION-or-'No description'`. -/
def serviceLine (n : Json) : String :=
  jsDisplay (nodeDataField n "service") ++ " (" ++
  jsDisplay (nodeDataField n "label") ++ "): " ++
  (if jsTruthy (nodeDataField n "description") then
    jsDisplay (nodeDataField n "description") else "No description")

/-- `servicesSummary` of `generateContextString`. -/
def servicesSummary (nodes : List Json) : String :=
  String.intercalate "\n- " (nodes.map serviceLine)

/-- One line of the connections summary. -/
def connectionLine (nodes : List Json) (e : Json) : String :=
  let src := nodes.find? (fun n => jsStrictEq (n.get? "id") (e.get? "source"))
  let tgt := nodes.find? (fun n => jsStrictEq (n.get? "id") (e.get? "target"))
  let labelOf : Option Json → String := fun nd =>
    match nd with
    | some n =>
      if jsTruthy (nodeDataField n "label") then jsDisplay (nodeDataField n "label")
      else "Unknown"
    | none => "Unknown"
  let protoField := (e.get? "data").bind (fun d => d.get? "protocol")
  let proto := if jsTruthy protoField then jsDisplay protoField else "default"
  labelOf src ++ " → " ++ labelOf tgt ++ " (" ++ proto ++ ")"

/-- `connectionsSummary` of `generateContextString`. -/
def connectionsSummary (nodes edges : List Json) : String :=
  String.intercalate "\n- " (edges.map (connectionLine nodes))

/-- The `originalRequirement` line of `generateContextString`
(`architecture.metadata?.prompt` with JS truthiness). -/
def originalRequirement (a : Architecture) : String :=
  match a.metadata with
  | some m =>
    match m.prompt with
    | some p =>
      if p == "" then "No original requirement specified"
      else "Original requirement: " ++ p
    | none => "No original requirement specified"
  | none => "No original requirement specified"

/-- `generateContextString` of `contextManager.ts`. -/
def generateContextString (architecture : Architecture) (level : ContextLevel) :
    String :=
  if level == ContextLevel.none then ""
  else
    let serviceCount := architecture.nodes.length
    let connectionCount := architecture.edges.length
    let orig := originalRequirement architecture
    if level == ContextLevel.minimal then
      "\nCURRENT ARCHITECTURE (MINIMAL):\n- " ++ toString serviceCount ++
      " services\n- " ++ toString connectionCount ++ " connections\n" ++ orig ++ "\n"
    else
      let sSum := servicesSummary architecture.nodes
      let cSum := connectionsSummary architecture.nodes architecture.edges
      if level == ContextLevel.summary then
        "\nCURRENT ARCHITECTURE SUMMARY:\nServices (" ++ toString serviceCount ++
        "):\n- " ++ sSum ++ "\n\nConnections (" ++ toString connectionCount ++
        "):\n- " ++ cSum ++ "\n\n" ++ orig ++ "\n"
      else if level == ContextLevel.full then
        let nodesJson := jsonStringifyPretty (Json.arr architecture.nodes)
        let edgesJson := jsonStringifyPretty (Json.arr architecture.edges)
        "\nFULL CURRENT ARCHITECTURE:\nNodes JSON: \n```json\n" ++ nodesJson ++
        "\n```\n\nEdges JSON: \n```json\n" ++ edgesJson ++
        "\n```\n\nServices Summary:\n- " ++ sSum ++
        "\n\nConnections Summary:\n- " ++ cSum ++ "\n\n" ++ orig ++ "\n"
      else ""

/-- The apostrophe as a one-character string (several source templates
contain apostrophes). -/
def apo : String := String.mk [apoc]

/-- The `PromptTemplate` interface of `promptTemplates.ts`. -/
structure PromptTemplate where
  systemPrompt : String
  userPromptPrefix : Option String := none
  userPromptSuffix : Option String := none
  temperature : Option ℚ := none
  model : Option String := none

/-- `BASE_SYSTEM_PROMPT` of `promptTemplates.ts`. -/
def BASE_SYSTEM_PROMPT : String :=
  "You are Jarvis, an intelligent AI assistant specialized in cloud architecture and system design.\nYou provide helpful, accurate, and concise responses. \nAlways prioritize clarity, security best practices, and scalable design when giving recommendations.\n"

/-- `ARCHITECTURE_SYSTEM_PROMPT` of `promptTemplates.ts`. -/
def ARCHITECTURE_SYSTEM_PROMPT : String :=
  BASE_SYSTEM_PROMPT ++
  "\nYou excel at cloud architecture design using AWS services. When analyzing or modifying architectures:\n1. Focus on security, scalability, and cost-effectiveness\n2. Use appropriate AWS services for each requirement\n3. Consider separation of concerns and system boundaries\n4. Suggest efficient data flows between services\n5. Recommend appropriate connection protocols between services\n"

/-- `CODE_SYSTEM_PROMPT` of `promptTemplates.ts`. -/
def CODE_SYSTEM_PROMPT : String :=
  BASE_SYSTEM_PROMPT ++
  "\nYou excel at writing clean, efficient, and well-documented code. When generating code:\n1. Follow best practices and design patterns for the target language\n2. Include necessary error handling and edge cases\n3. Write clear comments explaining complex logic\n4. Structure the code for maintainability and extensibility\n5. Use modern syntax and features when appropriate\n"

/-- `CDK_SYSTEM_PROMPT` of `promptTemplates.ts`. -/
def CDK_SYSTEM_PROMPT : String :=
  CODE_SYSTEM_PROMPT ++
  "\nYou specialize in AWS CDK (Cloud Development Kit) using TypeScript. When generating CDK code:\n1. Use L2 constructs when available for better abstractions\n2. Apply security best practices (least privilege IAM, encryption)\n3. Create reusable and modular constructs \n4. Use proper CDK patterns and idioms\n5. Include necessary imports and explicit dependencies\n6. Consider resource removal policies and retention strategies\n"

/-- The `promptTemplates` record of `promptTemplates.ts`, as a total
function on intents (record access in TS always hits a key). -/
def getPromptTemplateForIntent : Intent → PromptTemplate
  | .architecture_update =>
    { systemPrompt := ARCHITECTURE_SYSTEM_PROMPT ++
        "\nWhen updating an architecture based on user requirements:\n1. Always maintain the structure of the existing architecture where possible\n2. Add or modify only the necessary components to fulfill the request\n3. Preserve IDs and relationships of existing components\n4. Explain your reasoning for each change\n5. Return the updated nodes and edges JSON that can be directly used to replace the existing architecture",
      userPromptPrefix := some "Please update the current architecture based on this requirement: ",
      temperature := some (2/10) }
  | .architecture_rationale =>
    { systemPrompt := ARCHITECTURE_SYSTEM_PROMPT ++
        "\nWhen providing a comprehensive architecture rationale:\n1. Analyze the current architecture in detail including costs, scalability, and security\n2. Estimate the cost of each AWS service and provide a total monthly cost estimate\n3. Describe the purpose and importance of each component in the system\n4. Explain data flows and service connections, including why certain connections exist\n5. Evaluate the security, compliance, and operational aspects of the design\n6. Provide relevant best practices and potential improvements\n7. Format your response with clear markdown headings and structure",
      userPromptPrefix := some "Please provide a comprehensive rationale and analysis for this architecture: ",
      temperature := some (3/10),
      model := some "gpt-4" }
  | .cdk_generation =>
    { systemPrompt := CDK_SYSTEM_PROMPT ++
        "\nWhen generating CDK code for the architecture:\n1. Create TypeScript CDK constructs that implement the entire architecture\n2. Organize code into logical stacks based on service boundaries\n3. Include all necessary connections and permissions between services\n4. Add appropriate comments explaining implementation decisions\n5. Format your response as compilable TypeScript code in markdown code blocks",
      userPromptPrefix := some "Generate AWS CDK TypeScript code for the following architecture: ",
      temperature := some (2/10),
      model := some "gpt-4" }
  | .code_generation =>
    { systemPrompt := CODE_SYSTEM_PROMPT ++
        "\nWhen generating code based on requirements:\n1. Implement a complete solution that meets all specified requirements\n2. Structure the code logically with proper separation of concerns\n3. Include error handling, validation, and edge case management\n4. Add appropriate comments explaining implementation decisions\n5. Format your response as compilable code in markdown code blocks",
      userPromptPrefix := some "Please generate code for the following requirement: ",
      temperature := some (3/10) }
  | .code_explanation =>
    { systemPrompt := BASE_SYSTEM_PROMPT ++
        "\nWhen explaining code:\n1. First summarize what the code does at a high level\n2. Break down key sections and explain their purpose\n3. Identify important patterns, algorithms, or techniques used\n4. Note any potential issues, optimizations, or security concerns\n5. Use clear, educational language assuming the user has technical background",
      userPromptPrefix := some "Please explain this code: ",
      temperature := some (3/10) }
  | .architecture_explanation =>
    { systemPrompt := ARCHITECTURE_SYSTEM_PROMPT ++
        "\nWhen explaining an architecture:\n1. Provide a high-level overview of the system and its purpose\n2. Describe each component and its role in the architecture\n3. Explain the data flow and interactions between components\n4. Highlight key design decisions and their rationales\n5. Discuss scalability, security, and resilience aspects",
      userPromptPrefix := some "Please explain this architecture: ",
      temperature := some (3/10) }
  | .system_design =>
    { systemPrompt := ARCHITECTURE_SYSTEM_PROMPT ++
        "\nWhen designing a system from requirements:\n1. First analyze the functional and non-functional requirements\n2. Propose a high-level architecture with appropriate services\n3. Justify your choice of components and their relationships\n4. Consider scalability, security, reliability, and cost\n5. Suggest implementation approaches and potential challenges",
      userPromptPrefix := some "Please design a system for these requirements: ",
      temperature := some (4/10) }
  | .comparison =>
    { systemPrompt := BASE_SYSTEM_PROMPT ++
        "\nWhen making comparisons:\n1. Identify the key dimensions for comparison\n2. Objectively evaluate each option against these dimensions\n3. Highlight the strengths and weaknesses of each option\n4. Consider contextual factors that might affect the decision\n5. Provide a balanced assessment without unwarranted bias",
      userPromptPrefix := some "Compare the following: ",
      temperature := some (3/10) }
  | .question =>
    { systemPrompt := BASE_SYSTEM_PROMPT, temperature := some (4/10) }
  | .greeting =>
    { systemPrompt := BASE_SYSTEM_PROMPT ++
        "\nWhen greeting users:\n1. Be friendly, concise, and professional\n2. Briefly mention your capabilities relevant to cloud architecture\n3. Ask how you can assist them with their cloud architecture needs",
      temperature := some (7/10) }
  | .general_chat =>
    { systemPrompt := BASE_SYSTEM_PROMPT, temperature := some (5/10) }

/-- `buildSystemPrompt` of `promptTemplates.ts` (the context is appended
only when the context string is truthy, i.e. non-empty). -/
def buildSystemPrompt (intent : Intent) (contextString : String) : String :=
  let template := getPromptTemplateForIntent intent
  if !(contextString == "") then
    template.systemPrompt ++ "\n    \nCONTEXT:\n" ++ contextString
  else template.systemPrompt

/-- `formatUserMessage` of `promptTemplates.ts`. -/
def formatUserMessage (intent : Intent) (userMessage : String) : String :=
  let template := getPromptTemplateForIntent intent
  let m1 := match template.userPromptPrefix with
    | some p => p ++ userMessage
    | none => userMessage
  match template.userPromptSuffix with
  | some s => m1 ++ s
  | none => m1

/-- `getModelConfigForIntent` of `promptTemplates.ts` (`temperature || 0.4`
with JS truthiness: a zero temperature would also fall back). -/
def getModelConfigForIntent (intent : Intent) : ℚ × Option String :=
  let template := getPromptTemplateForIntent intent
  (match template.temperature with
   | some t => if t == 0 then 4/10 else t
   | none => 4/10,
   template.model)

/-- `generateAIPrompt` of `jarvis-integration.ts`: context-level selection,
context generation, then an intent-specific prompt template. -/
def generateAIPrompt (intent : EnhancedIntentMatch) (message : String)
    (architecture : ArchitectureContext) (targetLanguage : String) : String :=
  let contextLevel := getContextLevelForIntent intent.intentType
  let contextString := generateContextString architecture contextLevel
  let systemPrompt := buildSystemPrompt intent.intentType contextString
  let formattedUserMessage := formatUserMessage intent.intentType message
  if intent.intentType == Intent.architecture_update then
    let nodesJson := jsonStringifyPretty (Json.arr architecture.nodes)
    let edgesJson := jsonStringifyPretty (Json.arr architecture.edges)
    let editType := match intent.subType with
      | some st => if st == "" then "modify" else st
      | none => "modify"
    "\nYou are an AWS architecture expert modifying a diagram JSON based on a user request.\nCURRENT ARCHITECTURE JSON:\n```json\n\x7b \"nodes\": " ++
    nodesJson ++ ", \"edges\": " ++ edgesJson ++
    " \x7d\n```\nUSER REQUEST: \"" ++ message ++
    "\"\nTASK: Directly modify the architecture JSON to perform the " ++ apo ++
    editType ++ apo ++
    " action.\nOUTPUT FORMAT (Strictly follow):\n<architecture>\n\x7b \"nodes\": [...], \"edges\": [...] \x7d\n</architecture>\n<explanation>\nBrief bullet points of changes made.\n</explanation>\nIMPORTANT: Return the COMPLETE, modified architecture JSON. Ensure nodes/edges arrays are valid.\n"
  else if intent.intentType == Intent.architecture_rationale then
    let nodesJson := jsonStringifyPretty (Json.arr architecture.nodes)
    let edgesJson := jsonStringifyPretty (Json.arr architecture.edges)
    let sSum := servicesSummary architecture.nodes
    "\nYou are an AWS architecture expert providing a comprehensive rationale and analysis.\nCURRENT ARCHITECTURE JSON:\n```json\n\x7b \"nodes\": " ++
    nodesJson ++ ", \"edges\": " ++ edgesJson ++
    " \x7d\n```\n\nServices Summary:\n- " ++ sSum ++
    "\n\nUSER REQUEST: \"" ++ message ++
    "\"\n\nTASK: Provide a detailed rationale and analysis of this AWS architecture, responding to the user" ++ apo ++
    "s specific request.\n\nInclude in your comprehensive analysis:\n1. Executive Summary - Brief overview of the architecture" ++ apo ++
    "s purpose and design\n2. Cost Analysis - Estimated monthly costs for each AWS service and approximate total cost\n3. Architecture Components - Detailed explanation of each service" ++ apo ++
    "s purpose\n4. Data Flow - How information moves through the system\n5. Security Assessment - Security features and potential improvements\n6. Scalability Analysis - How the system handles increased load\n7. Reliability & Availability - Disaster recovery and high availability features\n8. Operational Excellence - Monitoring, alerting, and management\n9. Best Practices - AWS recommendations that are followed or could be implemented\n10. Trade-offs - Key design decisions and their implications\n\nFORMAT: Use proper markdown formatting with clear headings, bullet points, and tables where appropriate.\nFor the cost analysis, include a table with service names, estimated usage, and monthly costs.\n\nIMPORTANT: Make all cost estimates realistic based on typical usage patterns for this type of architecture.\n"
  else if intent.intentType == Intent.cdk_generation then
    "\nYou are an AWS CDK expert generating COMPLETE, production-ready Infrastructure as Code.\n" ++
    contextString ++ "\nUSER REQUEST: \"" ++ message ++
    "\"\nTASK: Generate complete AWS CDK v2 code in " ++ targetLanguage ++
    " for the user" ++ apo ++
    "s request, based on the provided architecture context.\nOUTPUT FORMAT:\n- Start with a brief one-sentence description (optional).\n- Provide the code ONLY within a single markdown code block with the correct language tag (e.g., ```" ++
    targetLanguage ++
    " ... ```).\n- Include necessary imports and structure the code properly (e.g., Stack class).\n- DO NOT include explanations outside the code block unless specifically asked.\n"
  else if intent.intentType == Intent.code_generation then
    "\nYou are a software engineer generating a concise code snippet.\n" ++
    contextString ++ "\nUSER REQUEST: \"" ++ message ++
    "\"\nTASK: Generate a code snippet in " ++ targetLanguage ++
    " that fulfills the user" ++ apo ++
    "s request, referencing the provided architecture context if needed.\nOUTPUT FORMAT:\n- Start with a brief one-sentence description (optional, max 1 sentence).\n- Provide the code ONLY within a single markdown code block with the correct language tag (```" ++
    targetLanguage ++
    " ... ```).\n- Include necessary imports/setup for the snippet to be understandable.\n- DO NOT include lengthy explanations outside the code block.\n"
  else
    systemPrompt ++ "\n\nUSER MESSAGE: " ++ formattedUserMessage

/-- The opening brace character. -/
def lbrace : Char := Char.ofNat 123

/-- The closing brace character. -/
def rbrace : Char := Char.ofNat 125

/-- Worker for `splitLit`: split on the non-empty separator
`s0 :: srest`. -/
def splitLitGo (s0 : Char) (srest : List Char) (s : List Char) :
    List (List Char) :=
  match s with
  | [] => [[]]
  | c :: t =>
    if hasPfx (s0 :: srest) (c :: t) then
      [] :: splitLitGo s0 srest (t.drop srest.length)
    else
      match splitLitGo s0 srest t with
      | [] => [[c]]
      | h :: rest => (c :: h) :: rest
termination_by s.length
decreasing_by
  all_goals simp [List.length_drop]
  all_goals omega

/-- Split on a literal separator, JS `String.prototype.split` style
(a trailing separator yields a trailing empty piece; the embedded code
never splits on an empty separator). -/
def splitLit (sep : List Char) (s : List Char) : List (List Char) :=
  match sep with
  | [] => [s]
  | s0 :: srest => splitLitGo s0 srest s

/-- Split on a (non-empty-matching) regex, JS
`String.prototype.split(regex)` style for regexes without capture
groups. -/
def jsSplitL (p : JsRegex) (fuel : Nat) (s : List Char) : List (List Char) :=
  match fuel with
  | 0 => [s]
  | fuel1 + 1 =>
    match jsSearch p s with
    | some (i, len, _) =>
      if len == 0 then [s]
      else s.take i :: jsSplitL p fuel1 (s.drop (i + len))
    | none => [s]

/-- JS `String.prototype.split(regex)` on `String`s. -/
def jsSplit (p : JsRegex) (s : String) : List String :=
  (jsSplitL p (s.data.length + 1) s.data).map String.mk

/-- `replace(/^\d+\.\s*/, "- ")`: turn a leading `1.`-style enumerator
into a bullet. -/
def replaceNumDot (s : List Char) : List Char :=
  let ds := s.takeWhile Char.isDigit
  if ds.isEmpty then s
  else
    match s.drop ds.length with
    | '.' :: rest => '-' :: ' ' :: rest.dropWhile isJsSpace
    | _ => s

/-- The code-block regex `/```[a-z]*\n[\s\S]+?```/i` of
`postProcessResponse`. -/
def codeBlockRegex : JsRegex :=
  ri (rcat [rstr "```", rstar (rrange 'a' 'z'), rchar '\n', rplusLazy rany, rstr "```"])

/-- The split regex `/(?:Here'?s the code|Implementation:|Code example)/i`
of the `code_explanation` branch. -/
def splitCodeRegex : JsRegex :=
  ri (ralt [rcat [rstr "here", ropt (rchar apoc), rstr "s the code"],
    rstr "implementation:", rstr "code example"])

/-- `postProcessResponse` of `formatResponse.ts`.  Note that the TS
`switch` has no case for `architecture_rationale`, which therefore hits
the `default` branch. -/
def postProcessResponse (intent : Intent) (rawResponse : String)
    (language : Option String) : String :=
  match intent with
  | .architecture_update => rawResponse
  | .cdk_generation | .code_generation =>
    if !(jsIncludes rawResponse "```") then
      let lang := match language with
        | some l =>
          if l == "" then
            (if intent == Intent.cdk_generation then "typescript" else "javascript")
          else l
        | none => if intent == Intent.cdk_generation then "typescript" else "javascript"
      "```" ++ lang ++ "\n" ++ jsTrim rawResponse ++ "\n```"
    else
      match jsMatchWhole codeBlockRegex rawResponse with
      | some block =>
        let introText :=
          jsTrim (String.mk (rawResponse.data.take
            ((indexOfSub "```".data rawResponse.data).getD 0)))
        if introText.length < 100 then
          (if introText == "" then block else introText ++ "\n\n" ++ block)
        else block
      | none => rawResponse
  | .code_explanation =>
    if !(jsIncludes rawResponse "```") then
      let parts := jsSplit splitCodeRegex rawResponse
      if parts.length > 1 then
        let explanation := jsTrim (parts.headD "")
        let code := jsTrim (parts.getD 1 "")
        let lang := match language with
          | some l => if l == "" then "javascript" else l
          | none => "javascript"
        explanation ++ "\n\n```" ++ lang ++ "\n" ++ code ++ "\n```"
      else rawResponse
    else rawResponse
  | .architecture_explanation | .system_design | .question | .comparison =>
    let headered : Option String :=
      if !(jsIncludes rawResponse "#") then
        let lines := splitLit "\n".data rawResponse.data
        if lines.length > 3 && !(hasPfx "#".data (lines.headD [])) then
          if intent == Intent.architecture_explanation then
            some ("## Architecture Explanation\n\n" ++ rawResponse)
          else if intent == Intent.system_design then
            some ("## System Design\n\n" ++ rawResponse)
          else if intent == Intent.comparison then
            some ("## Comparison\n\n" ++ rawResponse)
          else none
        else none
      else none
    match headered with
    | some out => out
    | none =>
      if (intent == Intent.comparison || intent == Intent.question) &&
          !(jsIncludes rawResponse "-") && !(jsIncludes rawResponse "*") &&
          (splitLit "\n\n".data rawResponse.data).length > 2 then
        let paragraphs := splitLit "\n\n".data rawResponse.data
        String.intercalate "\n\n"
          (paragraphs.map (fun p => String.mk (replaceNumDot (trimL p))))
      else rawResponse
  | .greeting | .general_chat => jsTrim rawResponse
  | .architecture_rationale => rawResponse

/-- The primary `<architecture>…</architecture>` extraction pattern of
`processArchitectureUpdate`. -/
def archTagPattern : JsRegex :=
  rplain (rcat [rstr "<architecture>", .grp 1 (rstarLazy rany), rstr "</architecture>"])

/-- The ordered extraction patterns of `processArchitectureUpdate`. -/
def archPatterns : List JsRegex := [
  archTagPattern,
  rplain (rcat [rstr "```", ropt (rstr "json"), rstar rws,
    ropt (ralt [rstr "architecture", rstr "diagram"]), rstar rws,
    .grp 1 (rstarLazy rany), rstr "```"]),
  rplain (rcat [rstr "```json", rstar rws, .grp 1 (rstarLazy rany), rstr "```"]),
  rplain (.grp 1 (rcat [rchar lbrace, rstarLazy rany, rstr "\"nodes\"", rstar rws,
    rchar ':', rstar rws, rchar '[', rstarLazy rany, rstr "\"edges\"", rstar rws,
    rchar ':', rstar rws, rchar '[', rstarLazy rany, rchar rbrace]))]

/-- The `<explanation>…</explanation>` regex of `processArchitectureUpdate`. -/
def explanationRegex : JsRegex :=
  rplain (rcat [rstr "<explanation>", .grp 1 (rstarLazy rany), rstr "</explanation>"])

/-- The markdown cleanup `replace(/^```json\s*|\s*```$/g, "")` applied to
an extracted architecture text: one leading ```` ```json\s* ```` and one
trailing `\s*` ``` ``` `` (the only places the anchored alternation can
match). -/
def cleanupArchText (s : List Char) : List Char :=
  let s1 := if hasPfx "```json".data s then (s.drop 7).dropWhile isJsSpace else s
  let r := s1.reverse
  if hasPfx "```".data r then ((r.drop 3).dropWhile isJsSpace).reverse else s1

/-- Does a parsed JSON value have array-valued `nodes` and `edges`
fields? -/
def isValidArchJson (j : Json) : Bool :=
  (match j.get? "nodes" with | some v => v.isArr | none => false) &&
  (match j.get? "edges" with | some v => v.isArr | none => false)

/-- What one pattern of the `processArchitectureUpdate` loop contributes:
the parsed architecture when the pattern matches with a non-empty group 1
whose trimmed, cleaned text parses as JSON with array `nodes` and
`edges`; `none` otherwise (no match, empty group — JS `match[1]`
truthiness —, parse error, or wrong shape). -/
def archPatternCandidate (rawResponse : String) (p : JsRegex) : Option Json :=
  match jsMatchGroup p 1 rawResponse with
  | some (some t) =>
    if t == "" then none
    else
      let cleaned := cleanupArchText (trimL t.data)
      match jsonParse (String.mk cleaned) with
      | some j => if isValidArchJson j then some j else none
      | none => none
  | _ => none

/-- Result record of `processArchitectureUpdate`. -/
structure ProcessedUpdate where
  parsedArchitecture : Option Json
  explanation : String
deriving BEq, Repr

/-- The no-`<explanation>`-tag fallback: strip the first match of each
extraction pattern, trim, default to "Architecture updated." when empty,
and truncate to 1500 characters (plus an ellipsis) when too long. -/
def fallbackExplanation (rawResponse : String) : String :=
  let cleaned := archPatterns.foldl (fun acc p => jsRemoveFirst p acc) rawResponse
  let e := jsTrim cleaned
  let e1 := if e == "" then "Architecture updated." else e
  if e1.length > 1500 then String.mk (e1.data.take 1500) ++ "..." else e1

/-- `processArchitectureUpdate` of `jarvis-integration.ts`: try the
patterns in order until one yields a valid architecture JSON, and extract
the explanation. -/
def processArchitectureUpdate (rawResponse : String) : ProcessedUpdate :=
  let parsed := archPatterns.findSome? (archPatternCandidate rawResponse)
  let explanation :=
    match jsMatchGroup explanationRegex 1 rawResponse with
    | some (some e) => if e == "" then fallbackExplanation rawResponse else jsTrim e
    | _ => fallbackExplanation rawResponse
  { parsedArchitecture := parsed, explanation := explanation }

/-- The options record passed to `generateCohereChatCompletion`. -/
structure CohereChatOptions where
  model : String
  message : String
  promptContext : String
  temperature : ℚ
  maxTokens : Nat
deriving DecidableEq, Repr

/-- Result record of `processJarvisRequest`. -/
structure JarvisResult where
  response : String
  architectureUpdated : Bool
  updatedArchitecture : Option Json := none
deriving BEq, Repr

/-- The parse-failure reply of the `architecture_update` branch. -/
def archUpdateFailureReply : String :=
  "I tried to update the architecture, but couldn" ++ apo ++
  "t parse the result properly. Please try rephrasing your request."

/-- `processJarvisRequest` of `jarvis-integration.ts`.  The Cohere call is
modelled by the oracle `ai` (the model response for given chat
options); `envCohereModel` models `process.env.COHERE_MODEL`.  The unused
`messageHistory` parameter is kept for shape. -/
def processJarvisRequest (ai : CohereChatOptions → String)
    (envCohereModel : Option String) (message : String)
    (architecture : ArchitectureContext) (messageHistory : List Json := []) :
    JarvisResult :=
  let enhancedIntent := detectEnhancedIntent message true
  let targetLanguage := match detectProgrammingLanguage message with
    | some l => if l == "" then "typescript" else l
    | none => "typescript"
  let aiPrompt := generateAIPrompt enhancedIntent message architecture targetLanguage
  let model := match envCohereModel with
    | some m => if m == "" then "command-r-plus" else m
    | none => "command-r-plus"
  let temperature : ℚ :=
    if jsIncludes enhancedIntent.intentType.toTsString "code" then 1/2 else 7/10
  let rawResponse := ai
    { model := model, message := message, promptContext := aiPrompt,
      temperature := temperature, maxTokens := 2000 }
  if enhancedIntent.intentType == Intent.architecture_update then
    let pu := processArchitectureUpdate rawResponse
    match pu.parsedArchitecture with
    | some j =>
      if jsTruthy (j.get? "nodes") && jsTruthy (j.get? "edges") then
        { response := "✅ Architecture updated successfully.\n\n" ++ pu.explanation,
          architectureUpdated := true, updatedArchitecture := some j }
      else { response := archUpdateFailureReply, architectureUpdated := false }
    | none => { response := archUpdateFailureReply, architectureUpdated := false }
  else
    { response := postProcessResponse enhancedIntent.intentType rawResponse
        (some targetLanguage),
      architectureUpdated := false }

/-- Specification-side pipeline for the non-`architecture_update` path,
written as the claimed sequential composition of stages: intent detection,
language detection (with the `typescript` fallback), context/prompt
generation, the AI call, and post-processing. -/
def jarvisPipelineStages (ai : CohereChatOptions → String)
    (envCohereModel : Option String) (message : String)
    (architecture : ArchitectureContext) : JarvisResult :=
  let intent := detectEnhancedIntent message true
  let language := (detectProgrammingLanguage message).getD "typescript"
  let prompt := generateAIPrompt intent message architecture language
  let model := match envCohereModel with
    | some m => if m == "" then "command-r-plus" else m
    | none => "command-r-plus"
  let temperature : ℚ :=
    if jsIncludes intent.intentType.toTsString "code" then 1/2 else 7/10
  let rawModelOutput := ai
    { model := model, message := message, promptContext := prompt,
      temperature := temperature, maxTokens := 2000 }
  { response := postProcessResponse intent.intentType rawModelOutput (some language),
    architectureUpdated := false }

/-- The error values `withExponentialBackoff` inspects: an optional HTTP
status and an optional message. -/
structure JsError where
  status : Option Nat := none
  message : Option String := none
deriving DecidableEq, Repr

/-- The `RetryOptions` of `retry-helpers.ts` with its defaults.  Delays
are rationals (JS numbers; the code only multiplies and clamps them). -/
structure RetryOptions where
  maxRetries : Nat := 3
  initialDelayMs : ℚ := 200
  maxDelayMs : ℚ := 10000
  backoffFactor : ℚ := 2
  jitterFactor : ℚ := 1/4
  retryStatusCodes : List Nat := [429, 503, 502, 500]
deriving DecidableEq, Repr

/-- The retry decision of `withExponentialBackoff` (JS truthiness of
`error.status` and `error.message` included: a 0 status or empty message
short-circuits to false). -/
def shouldRetry (opts : RetryOptions) (e : JsError) : Bool :=
  (match e.status with
   | some s => !(s == 0) && opts.retryStatusCodes.contains s
   | none => false) ||
  (match e.message with
   | some m => !(m == "") && jsIncludes m "Service Unavailable"
   | none => false) ||
  (match e.message with
   | some m => !(m == "") &&
      (jsIncludes m "network" || jsIncludes m "timeout" || jsIncludes m "overloaded")
   | none => false)

/-- The retry loop of `withExponentialBackoff`.  The TS `for` loop runs
`attempt` from 0 to `maxRetries`; here `remaining = maxRetries - attempt`
so that the recursion is structural, and the TS guard
`attempt === maxRetries` is exactly `remaining = 0`.  The operation is
modelled by `op`, giving the outcome of each attempt by index.  Besides
the result, the loop returns the number of attempts made and the list of
pre-jitter delays waited (observables of the source: the `setTimeout`
calls). -/
def retryLoop (op : Nat → Except JsError α) (opts : RetryOptions) :
    Nat → Nat → ℚ → Except JsError α × Nat × List ℚ
  | attempt, remaining, delayMs =>
    match op attempt with
    | .ok v => (.ok v, attempt + 1, [])
    | .error e =>
      match remaining with
      | 0 => (.error e, attempt + 1, [])
      | r + 1 =>
        if !(shouldRetry opts e) then (.error e, attempt + 1, [])
        else
          let next := retryLoop op opts (attempt + 1) r
            (min (delayMs * opts.backoffFactor) opts.maxDelayMs)
          (next.1, next.2.1, delayMs :: next.2.2)

/-- `withExponentialBackoff` of `retry-helpers.ts` (instrumented with the
attempt count and pre-jitter delay trace). -/
def withExponentialBackoff (op : Nat → Except JsError α)
    (opts : RetryOptions := {}) : Except JsError α × Nat × List ℚ :=
  retryLoop op opts 0 opts.maxRetries opts.initialDelayMs

/-- The in-memory `architectureStore` of `src/app/api/store.ts`, modelled
as an association list where later writes shadow earlier ones. -/
abbrev ArchitectureStore := List (String × Architecture)

/-- Property read `architectureStore[id]`. -/
def storeGet (store : ArchitectureStore) (id : String) : Option Architecture :=
  (store.find? (fun p => p.1 == id)).map (·.2)

/-- Property write `architectureStore[id] = a`. -/
def storeSet (store : ArchitectureStore) (id : String) (a : Architecture) :
    ArchitectureStore :=
  (id, a) :: store

/-- `getArchitecture` of `architecture-store.ts` (an empty id is falsy). -/
def getArchitecture (store : ArchitectureStore) (architectureId : String) :
    Option Architecture :=
  if architectureId == "" then none else storeGet store architectureId

/-- `saveArchitecture` of `architecture-store.ts`: refresh the metadata
(`lastEditedAt` gets the current time `now`, `lastEditedBy` the editor)
and write to the store; an empty id throws. -/
def saveArchitecture (store : ArchitectureStore) (architectureId : String)
    (architecture : Architecture) (editedBy : String) (now : String) :
    Except String (ArchitectureStore × Architecture) :=
  if architectureId == "" then .error "Architecture ID is required"
  else
    let base := architecture.metadata.getD {}
    let newMeta := { base with lastEditedAt := some now, lastEditedBy := some editedBy }
    let updated := { architecture with metadata := some newMeta }
    .ok (storeSet store architectureId updated, updated)

/-- `deleteArchitecture` of `architecture-store.ts`. -/
def deleteArchitecture (store : ArchitectureStore) (architectureId : String) :
    ArchitectureStore × Bool :=
  if architectureId == "" then (store, false)
  else
    match storeGet store architectureId with
    | some _ => (store.filter (fun p => !(p.1 == architectureId)), true)
    | none => (store, false)

/-- One entry of a session's intent history. -/
structure SessionIntentEntry where
  intent : Intent
  timestamp : Nat
deriving DecidableEq, Repr

/-- A chat message as stored in a session. -/
structure ChatMsg where
  role : String
  content : String
  timestamp : Option String := none
deriving DecidableEq, Repr

/-- The `ConversationSession` interface of `jarvis-orchestrator.ts`. -/
structure ConversationSession where
  id : String
  messageCount : Nat
  lastMessageTimestamp : Nat
  intents : List SessionIntentEntry
  conversationSummary : Option String := none
  messages : Option (List ChatMsg) := none
deriving DecidableEq, Repr

/-- The module-level `activeSessions` record, modelled as an association
list where later writes shadow earlier ones. -/
abbrev SessionStore := List (String × ConversationSession)

/-- Property read `activeSessions[id]`. -/
def sessionsGet (ss : SessionStore) (id : String) : Option ConversationSession :=
  (ss.find? (fun p => p.1 == id)).map (·.2)

/-- Property write `activeSessions[id] = s`. -/
def sessionsSet (ss : SessionStore) (id : String) (s : ConversationSession) :
    SessionStore :=
  (id, s) :: ss

/-- `getOrCreateSession` of `jarvis-orchestrator.ts` (`now` models
`Date.now()`); returns the possibly-extended store and the session. -/
def getOrCreateSession (ss : SessionStore) (architectureId : String) (now : Nat) :
    SessionStore × ConversationSession :=
  match sessionsGet ss architectureId with
  | some s => (ss, s)
  | none =>
    let s : ConversationSession :=
      { id := architectureId, messageCount := 0,
        lastMessageTimestamp := now, intents := [] }
    (sessionsSet ss architectureId s, s)

/-- The `update` argument of `updateSession` (absent fields are falsy). -/
structure SessionUpdate where
  messages : Option (List ChatMsg) := none
  intent : Option Intent := none
deriving DecidableEq, Repr

/-- `session.intents.slice(-20)`: the last 20 entries. -/
def jsSliceLast20 (l : List SessionIntentEntry) : List SessionIntentEntry :=
  l.drop (l.length - 20)

/-- `updateSession` of `jarvis-orchestrator.ts`: fetch or create the
session, optionally replace its messages, optionally push the new intent
(capping the history at 20 entries), refresh the timestamp, and store the
mutated session. -/
def updateSession (ss : SessionStore) (sessionId : String)
    (update : SessionUpdate) (now : Nat) : SessionStore :=
  let s0 := getOrCreateSession ss sessionId now
  let session := s0.2
  let s1 : ConversationSession := match update.messages with
    | some msgs => { session with messages := some msgs, messageCount := msgs.length }
    | none => session
  let s2 : ConversationSession := match update.intent with
    | some i =>
      let entry : SessionIntentEntry := { intent := i, timestamp := now }
      let pushed := s1.intents ++ [entry]
      { s1 with intents := if pushed.length > 20 then jsSliceLast20 pushed else pushed }
    | none => s1
  sessionsSet s0.1 sessionId { s2 with lastMessageTimestamp := now }

/-- `clearConversationSession` of `jarvis-orchestrator.ts`. -/
def clearConversationSession (ss : SessionStore) (architectureId : String) :
    SessionStore × Bool :=
  match sessionsGet ss architectureId with
  | some _ => (ss.filter (fun p => !(p.1 == architectureId)), true)
  | none => (ss, false)

/-- The `ResponseMetrics` record (values come from `performance.now()`,
modelled by the `perf` reading sequence of the orchestrator). -/
structure ResponseMetrics where
  intentDetectionTimeMs : ℚ
  promptGenerationTimeMs : ℚ
  aiRequestTimeMs : ℚ
  responseProcessingTimeMs : ℚ
  totalProcessingTimeMs : ℚ
deriving DecidableEq, Repr

/-- The metadata attached to an `EnhancedResponse` (the `intent` field is
a string in TS: `Intent | string`). -/
structure EnhancedMetadata where
  intent : String
  subIntent : Option String := none
  confidence : ℚ
  metrics : Option ResponseMetrics := none
  suggestedFollowups : Option (List String) := none
deriving DecidableEq, Repr

/-- The `EnhancedResponse` record of `jarvis-orchestrator.ts`. -/
structure EnhancedResponse where
  response : String
  architectureUpdated : Bool
  updatedArchitecture : Option Json := none
  metadata : Option EnhancedMetadata := none
deriving BEq, Repr

/-- Base follow-up suggestions by intent (the `switch` of the
orchestrator's `generateFollowupSuggestions`). -/
def followupBase : Intent → List String
  | .architecture_update =>
    ["Generate CDK code for this architecture",
     "What are the security considerations for this design?",
     "Explain the data flow in this architecture"]
  | .architecture_rationale =>
    ["How can we optimize the costs of this architecture?",
     "What would be the disaster recovery strategy for this design?",
     "Generate CDK code for this architecture",
     "How would this architecture scale to handle 10x the load?",
     "What are the security best practices we should implement?"]
  | .cdk_generation =>
    ["How would I deploy this CDK code?",
     "What AWS permissions are needed to deploy this?",
     "Explain how the CDK constructs work together"]
  | .code_generation =>
    ["Explain how this code works",
     "What error handling should I add?",
     "How would I test this code?"]
  | .architecture_explanation =>
    ["Generate code example for this concept",
     "What are the best practices for this?",
     "What are common mistakes to avoid?"]
  | .code_explanation =>
    ["Generate code example for this concept",
     "What are the best practices for this?",
     "What are common mistakes to avoid?"]
  | .question =>
    ["Generate code example for this concept",
     "What are the best practices for this?",
     "What are common mistakes to avoid?"]
  | _ =>
    ["Update the architecture diagram",
     "Generate CDK code for AWS deployment",
     "Explain the benefits of this architecture"]

/-- The architecture-specific suggestions of
`generateFollowupSuggestions`. -/
def archSuggestions (architecture : ArchitectureContext) : List String :=
  if architecture.nodes.length > 0 then
    let serviceTypes := architecture.nodes.map (fun n => jsDisplay (nodeDataField n "service"))
    (if !(serviceTypes.any (fun s => jsIncludes s "Lambda")) then
      ["Add a Lambda function to handle API requests"] else []) ++
    (if !(serviceTypes.any (fun s => jsIncludes s "DynamoDB" || jsIncludes s "RDS")) then
      ["Add a database to store application data"] else []) ++
    (if !(serviceTypes.any (fun s => jsIncludes s "CloudFront" || jsIncludes s "API Gateway")) then
      ["Add an API Gateway to manage API endpoints"] else [])
  else []

/-- Fisher–Yates pass of `shuffleArray`, with `Math.random()` draws
modelled by `rands` (the value used at loop index `i` is
`rands i % (i + 1)`, matching `Math.floor(Math.random() * (i + 1))`). -/
def shuffleGo (rands : Nat → Nat) (a : Array String) : Nat → Array String
  | 0 => a
  | i + 1 =>
    let j := rands (i + 1) % (i + 2)
    let x := a.getD (i + 1) ""
    let y := a.getD j ""
    shuffleGo rands ((a.setD (i + 1) y).setD j x) i

/-- `shuffleArray` of `jarvis-orchestrator.ts`. -/
def shuffleArray (rands : Nat → Nat) (array : List String) : List String :=
  (shuffleGo rands array.toArray (array.length - 1)).toList

/-- `generateFollowupSuggestions` of `jarvis-orchestrator.ts`: intent-based
plus architecture-based suggestions, shuffled, first three kept. -/
def generateFollowupSuggestions (rands : Nat → Nat)
    (intent : EnhancedIntentMatch) (architecture : ArchitectureContext) :
    List String :=
  (shuffleArray rands (followupBase intent.intentType ++ archSuggestions architecture)).take 3

/-- `orchestrateJarvisRequest` of `jarvis-orchestrator.ts`, as a state
transformer on the session store.  `dateNow` models `Date.now()`, `perf`
the successive `performance.now()` readings, `rands` the `Math.random()`
draws of the shuffle; the AI call oracle and environment are passed down
to `processJarvisRequest`. -/
def orchestrateJarvisRequest (ai : CohereChatOptions → String)
    (envCohereModel : Option String) (message : String)
    (architectureId : String) (architecture : ArchitectureContext)
    (messageHistory : List Json) (ss : SessionStore) (dateNow : Nat)
    (perf : Nat → ℚ) (rands : Nat → Nat) : SessionStore × EnhancedResponse :=
  let startTime := perf 0
  let ss1 := (getOrCreateSession ss architectureId dateNow).1
  let intentStartTime := perf 1
  let intent := detectEnhancedIntent message true
  let intentTime := perf 2 - intentStartTime
  let ss2 := updateSession ss1 architectureId { intent := some intent.intentType } dateNow
  let processingStartTime := perf 3
  let result := processJarvisRequest ai envCohereModel message architecture messageHistory
  let aiTime := perf 4 - processingStartTime
  let suggestedFollowups := generateFollowupSuggestions rands intent architecture
  let totalTime := perf 5 - startTime
  let metrics : ResponseMetrics :=
    { intentDetectionTimeMs := intentTime,
      promptGenerationTimeMs := 0, aiRequestTimeMs := aiTime,
      responseProcessingTimeMs := 0, totalProcessingTimeMs := totalTime }
  let metadata : EnhancedMetadata :=
    { intent := intent.intentType.toTsString,
      subIntent := intent.subType, confidence := intent.confidence,
      metrics := some metrics, suggestedFollowups := some suggestedFollowups }
  let out : EnhancedResponse :=
    { response := result.response,
      architectureUpdated := result.architectureUpdated,
      updatedArchitecture := result.updatedArchitecture,
      metadata := some metadata }
  (ss2, out)

/-- C4: persistence goes through the single in-memory store: for a
non-empty id, `saveArchitecture` succeeds and immediately afterwards
`getArchitecture` returns an object with the saved nodes and edges whose
metadata carries `lastEditedBy = editedBy` and the fresh `lastEditedAt`
timestamp; and `getArchitecture` of an empty id, or of an id no entry of
the store carries, returns `null`. -/
theorem architectureStore_save_get_roundtrip
    (store : ArchitectureStore) (id : String) (a : Architecture)
    (editedBy now : String) (store2 : ArchitectureStore) (id2 : String) :
    (id ≠ "" → ∃ store1 u, saveArchitecture store id a editedBy now = .ok (store1, u) ∧
      getArchitecture store1 id = some u ∧
      u.nodes = a.nodes ∧ u.edges = a.edges ∧
      ∃ m, u.metadata = some m ∧ m.lastEditedBy = some editedBy ∧
        m.lastEditedAt = some now) ∧
    getArchitecture store2 "" = none ∧
    ((∀ p ∈ store2, p.1 ≠ id2) → getArchitecture store2 id2 = none) := by
  refine ⟨fun h => ?_, by simp [getArchitecture], fun hfresh => ?_⟩
  · have hid : (id == "") = false := by
      simpa using h
    refine ⟨storeSet store id
        { a with metadata := some { a.metadata.getD {} with
            lastEditedAt := some now, lastEditedBy := some editedBy } },
      { a with metadata := some { a.metadata.getD {} with
          lastEditedAt := some now, lastEditedBy := some editedBy } },
      ?_, ?_, rfl, rfl,
      { a.metadata.getD {} with lastEditedAt := some now, lastEditedBy := some editedBy },
      rfl, rfl, rfl⟩
    · simp [saveArchitecture, hid]
    · simp [getArchitecture, hid, storeGet, storeSet]
  · by_cases hid : id2 = ""
    · simp [getArchitecture, hid]
    · have hid' : (id2 == "") = false := by simpa using hid
      have hfind : store2.find? (fun p => p.1 == id2) = none :=
        List.find?_eq_none.mpr (fun x hx => by simpa using hfresh x hx)
      simp [getArchitecture, hid', storeGet, hfind]

/-- C4 witness: the round trip and the miss case at concrete inputs. -/
theorem architectureStore_save_get_roundtrip_witness :
    (∃ store1 u,
      saveArchitecture [] "arch-1" ⟨[], [], none⟩ "Jarvis" "t0" = .ok (store1, u) ∧
      getArchitecture store1 "arch-1" = some u ∧
      u.nodes = (⟨[], [], none⟩ : Architecture).nodes ∧
      u.edges = (⟨[], [], none⟩ : Architecture).edges ∧
      ∃ m, u.metadata = some m ∧ m.lastEditedBy = some "Jarvis" ∧
        m.lastEditedAt = some "t0") ∧
    getArchitecture [("other", ⟨[], [], none⟩)] "missing" = none :=
  ⟨(architectureStore_save_get_roundtrip [] "arch-1" ⟨[], [], none⟩ "Jarvis" "t0"
      [] "missing").1 (by decide),
   (architectureStore_save_get_roundtrip [] "arch-1" ⟨[], [], none⟩ "Jarvis" "t0"
      [("other", ⟨[], [], none⟩)] "missing").2.2 (by simp)⟩

/-- The intent-history bound that C10 asserts of every stored session. -/
def SessionInv (ss : SessionStore) : Prop :=
  ∀ p ∈ ss, p.2.intents.length ≤ 20

/-- `slice(-20)` keeps at most 20 entries. -/
theorem length_jsSliceLast20 (l : List SessionIntentEntry) :
    (jsSliceLast20 l).length ≤ 20 := by
  simp [jsSliceLast20]
  omega

/-- A stored session satisfies the bound `SessionInv` guarantees. -/
theorem sessionsGet_inv {ss : SessionStore} {id : String} {s : ConversationSession}
    (hinv : SessionInv ss) (h : sessionsGet ss id = some s) :
    s.intents.length ≤ 20 := by
  simp [sessionsGet] at h
  rcases h with ⟨a, hfind⟩
  exact hinv (a, s) (List.mem_of_find?_eq_some hfind)

/-- Reading back the session just written. -/
theorem sessionsGet_set (ss : SessionStore) (id : String) (s : ConversationSession) :
    sessionsGet (sessionsSet ss id s) id = some s := by
  simp [sessionsGet, sessionsSet]

/-- `getOrCreateSession` preserves the history bound. -/
theorem getOrCreateSession_fst_inv {ss : SessionStore} {id : String} {now : Nat}
    (hinv : SessionInv ss) : SessionInv (getOrCreateSession ss id now).1 := by
  cases hfind : sessionsGet ss id with
  | some s => simpa [getOrCreateSession, hfind] using hinv
  | none =>
    simp only [getOrCreateSession, hfind, sessionsSet]
    intro p hp
    rcases List.mem_cons.mp hp with h1 | h2
    · subst h1; simp
    · exact hinv p h2

/-- The session handed out by `getOrCreateSession` satisfies the bound. -/
theorem getOrCreateSession_snd_inv {ss : SessionStore} {id : String} {now : Nat}
    (hinv : SessionInv ss) : (getOrCreateSession ss id now).2.intents.length ≤ 20 := by
  cases hfind : sessionsGet ss id with
  | some s =>
    have hb := sessionsGet_inv hinv hfind
    simpa [getOrCreateSession, hfind] using hb
  | none => simp [getOrCreateSession, hfind]

/-- The intent history stored by `updateSession`, as a function of the
previous history. -/
def updIntents (pre : List SessionIntentEntry) (u : SessionUpdate) (now : Nat) :
    List SessionIntentEntry :=
  match u.intent with
  | some i =>
    let pushed := pre ++ [⟨i, now⟩]
    if pushed.length > 20 then jsSliceLast20 pushed else pushed
  | none => pre

/-- `updateSession` writes back the fetched session with its intent
history transformed by `updIntents`. -/
theorem updateSession_eq (ss : SessionStore) (id : String) (u : SessionUpdate) (now : Nat) :
    ∃ s3, updateSession ss id u now = sessionsSet (getOrCreateSession ss id now).1 id s3 ∧
      s3.intents = updIntents (getOrCreateSession ss id now).2.intents u now ∧
      s3.lastMessageTimestamp = now := by
  refine ⟨_, rfl, ?_, by simp [updateSession]⟩
  cases hm : u.messages
  all_goals cases hi : u.intent
  all_goals simp [updateSession, updIntents, hm, hi]

/-- `updIntents` preserves the 20-entry bound. -/
theorem updIntents_le (pre : List SessionIntentEntry) (u : SessionUpdate) (now : Nat)
    (hpre : pre.length ≤ 20) : (updIntents pre u now).length ≤ 20 := by
  cases hi : u.intent with
  | none => simpa [updIntents, hi] using hpre
  | some i =>
    simp only [updIntents, hi]
    split
    · exact length_jsSliceLast20 _
    · simp_all

/-- C10: a session created by `getOrCreateSession` starts with an empty
intent history; both session-store operations preserve the 20-entry bound
on every stored session; after any `updateSession` call the stored session
holds at most 20 intents; and when an intent is pushed, the stored history
is unconditionally at most 20 entries and is a suffix of the previous
history extended with the new entry (so only the most recent entries are
kept). -/
theorem sessionIntentHistory_bounded
    (ss : SessionStore) (id : String) (now : Nat) (u : SessionUpdate) :
    (sessionsGet ss id = none → (getOrCreateSession ss id now).2.intents = []) ∧
    (SessionInv ss → SessionInv (getOrCreateSession ss id now).1) ∧
    (SessionInv ss → SessionInv (updateSession ss id u now)) ∧
    (SessionInv ss → ∀ s, sessionsGet (updateSession ss id u now) id = some s →
      s.intents.length ≤ 20) ∧
    (∀ i, u.intent = some i →
      ∃ s, sessionsGet (updateSession ss id u now) id = some s ∧
        s.intents.length ≤ 20 ∧
        s.intents <:+ ((getOrCreateSession ss id now).2.intents ++ [⟨i, now⟩])) := by
  obtain ⟨s3, heq, hint, -⟩ := updateSession_eq ss id u now
  refine ⟨fun h => by simp [getOrCreateSession, h],
    fun hinv => getOrCreateSession_fst_inv hinv,
    fun hinv => ?_, fun hinv s hs => ?_, fun i hi => ?_⟩
  · rw [heq]
    intro p hp
    rcases List.mem_cons.mp (by simpa [sessionsSet] using hp) with h1 | h2
    · subst h1
      simpa [hint] using updIntents_le _ u now (getOrCreateSession_snd_inv hinv)
    · exact getOrCreateSession_fst_inv hinv p h2
  · rw [heq, sessionsGet_set] at hs
    injection hs with h
    subst h
    simpa [hint] using updIntents_le _ u now (getOrCreateSession_snd_inv hinv)
  · refine ⟨s3, by rw [heq, sessionsGet_set], ?_, ?_⟩
    · rw [hint]
      simp only [updIntents, hi]
      split
      · exact length_jsSliceLast20 _
      · rename_i hgt
        simp at hgt ⊢
        omega
    · rw [hint]
      simp only [updIntents, hi, jsSliceLast20]
      split
      · exact List.drop_suffix _ _
      · exact List.suffix_refl _

/-- C10 witness: the bound at concrete inputs. -/
theorem sessionIntentHistory_bounded_witness :
    (getOrCreateSession ([] : SessionStore) "a1" 5).2.intents = [] ∧
    (∃ s, sessionsGet (updateSession [] "a1" { intent := some Intent.greeting } 5) "a1" = some s ∧
      s.intents.length ≤ 20 ∧
      s.intents <:+
        ((getOrCreateSession ([] : SessionStore) "a1" 5).2.intents ++ [⟨Intent.greeting, 5⟩])) :=
  ⟨(sessionIntentHistory_bounded [] "a1" 5 { intent := some Intent.greeting }).1 rfl,
   (sessionIntentHistory_bounded [] "a1" 5
      { intent := some Intent.greeting }).2.2.2.2 Intent.greeting rfl⟩

/-- The claimed delay schedule: start at `initialDelayMs`, multiply by
`backoffFactor` after each retry, clamp at `maxDelayMs`. -/
def delaySeq (opts : RetryOptions) : Nat → ℚ
  | 0 => opts.initialDelayMs
  | n + 1 => min (delaySeq opts n * opts.backoffFactor) opts.maxDelayMs

/-- The delay value reached after iterating the update
`d ↦ min (d * backoffFactor) maxDelayMs` `n` times. -/
def delayIter (opts : RetryOptions) : Nat → ℚ → ℚ
  | 0, d => d
  | n + 1, d => delayIter opts n (min (d * opts.backoffFactor) opts.maxDelayMs)

/-- Iterating the update from `initialDelayMs` is the claimed schedule. -/
theorem delayIter_eq_delaySeq (opts : RetryOptions) :
    ∀ n, delayIter opts n opts.initialDelayMs = delaySeq opts n := by
  have hout : ∀ n d, delayIter opts (n + 1) d =
      min (delayIter opts n d * opts.backoffFactor) opts.maxDelayMs := by
    intro n
    induction n with
    | zero => intro d; simp [delayIter]
    | succ m ih => intro d; rw [delayIter, ih, delayIter]
  intro n
  induction n with
  | zero => simp [delayIter, delaySeq]
  | succ m ih => rw [hout, ih, delaySeq]

/-- The retry loop makes at most `attempt + remaining + 1` attempts. -/
theorem retryLoop_attempts_le (op : Nat → Except JsError α) (opts : RetryOptions) :
    ∀ remaining attempt d,
      (retryLoop op opts attempt remaining d).2.1 ≤ attempt + remaining + 1 := by
  intro remaining
  induction remaining with
  | zero =>
    intro attempt d
    cases hop : op attempt <;> simp [retryLoop, hop]
  | succ r ih =>
    intro attempt d
    cases hop : op attempt with
    | ok v =>
      rw [retryLoop, hop]
      show attempt + 1 ≤ attempt + (r + 1) + 1
      omega
    | error e =>
      rw [retryLoop, hop]
      by_cases hsr : shouldRetry opts e
      · have := ih (attempt + 1) (min (d * opts.backoffFactor) opts.maxDelayMs)
        simp [hsr]
        omega
      · simp [hsr]

/-- Behaviour of the retry loop after `k` retryable failures: the result
of attempt `k` is returned (a success always; a failure when it is
non-retryable or the budget is exhausted), having waited the geometric
delay schedule before each retry. -/
theorem retryLoop_spec (op : Nat → Except JsError α) (opts : RetryOptions) :
    ∀ (k attempt remaining : Nat) (d : ℚ),
      k ≤ remaining →
      (∀ j, j < k → ∃ e, op (attempt + j) = .error e ∧ shouldRetry opts e = true) →
      (∀ v, op (attempt + k) = .ok v →
        retryLoop op opts attempt remaining d =
          (.ok v, attempt + k + 1, (List.range k).map (fun n => delayIter opts n d))) ∧
      (∀ e, op (attempt + k) = .error e →
        (shouldRetry opts e = false ∨ k = remaining) →
        retryLoop op opts attempt remaining d =
          (.error e, attempt + k + 1, (List.range k).map (fun n => delayIter opts n d))) := by
  intro k
  induction k with
  | zero =>
    intro attempt remaining d hk hpre
    simp only [Nat.add_zero, List.range_zero, List.map_nil]
    constructor
    · intro v hv
      rw [retryLoop, hv]
    · intro e he hcond
      rw [retryLoop, he]
      cases remaining with
      | zero => rfl
      | succ r =>
        have hf : shouldRetry opts e = false := by
          rcases hcond with h | h
          · exact h
          · omega
        simp [hf]
  | succ k ih =>
    intro attempt remaining d hk hpre
    obtain ⟨e0, he0, hr0⟩ := hpre 0 (Nat.succ_pos k)
    simp only [Nat.add_zero] at he0
    cases remaining with
    | zero => omega
    | succ r =>
      have hk' : k ≤ r := by omega
      have hpre' : ∀ j, j < k →
          ∃ e, op (attempt + 1 + j) = .error e ∧ shouldRetry opts e = true := by
        intro j hj
        have hme := hpre (j + 1) (by omega)
        have : attempt + (j + 1) = attempt + 1 + j := by omega
        rwa [this] at hme
      have ihs := ih (attempt + 1) r (min (d * opts.backoffFactor) opts.maxDelayMs) hk' hpre'
      have hshift : attempt + 1 + k = attempt + (k + 1) := by omega
      have hlist : d :: (List.range k).map
            (fun n => delayIter opts n (min (d * opts.backoffFactor) opts.maxDelayMs)) =
          (List.range (k + 1)).map (fun n => delayIter opts n d) := by
        rw [List.range_succ_eq_map]
        simp [Function.comp, delayIter]
      constructor
      · intro v hv
        have hrun := ihs.1 v (by rw [hshift]; exact hv)
        rw [retryLoop, he0]
        simp [hr0, hrun, ← hlist]
        omega
      · intro e he hcond
        have hcond' : shouldRetry opts e = false ∨ k = r := by
          rcases hcond with h | h
          · exact Or.inl h
          · exact Or.inr (by omega)
        have hrun := ihs.2 e (by rw [hshift]; exact he) hcond'
        rw [retryLoop, he0]
        simp [hr0, hrun, ← hlist]
        omega

/-- C2: `withExponentialBackoff` makes at most `maxRetries + 1` attempts
(4 with the defaults: `maxRetries = 3`); retries exactly on errors whose
status is one of `retryStatusCodes` (default 429, 503, 502, 500) or whose
message contains one of the four retryable substrings; returns the first
success; rethrows a non-retryable error and the error of the last
permitted attempt; and waits pre-jitter delays that start at
`initialDelayMs` and are multiplied by `backoffFactor` after each retry,
clamped at `maxDelayMs`. -/
theorem withExponentialBackoff_spec (op : Nat → Except JsError α) (opts : RetryOptions) :
    ((withExponentialBackoff op opts).2.1 ≤ opts.maxRetries + 1) ∧
    (({} : RetryOptions).maxRetries + 1 = 4 ∧
      ({} : RetryOptions).retryStatusCodes = [429, 503, 502, 500] ∧
      ({} : RetryOptions).initialDelayMs = 200 ∧
      ({} : RetryOptions).backoffFactor = 2 ∧
      ({} : RetryOptions).maxDelayMs = 10000) ∧
    (∀ e, shouldRetry opts e = true ↔
      ((∃ s, e.status = some s ∧ s ≠ 0 ∧ s ∈ opts.retryStatusCodes) ∨
       (∃ m, e.message = some m ∧
         (jsIncludes m "Service Unavailable" = true ∨ jsIncludes m "network" = true ∨
          jsIncludes m "timeout" = true ∨ jsIncludes m "overloaded" = true)))) ∧
    (∀ k, k ≤ opts.maxRetries →
      (∀ j, j < k → ∃ e, op j = .error e ∧ shouldRetry opts e = true) →
      (∀ v, op k = .ok v →
        withExponentialBackoff op opts =
          (.ok v, k + 1, (List.range k).map (delaySeq opts))) ∧
      (∀ e, op k = .error e → (shouldRetry opts e = false ∨ k = opts.maxRetries) →
        withExponentialBackoff op opts =
          (.error e, k + 1, (List.range k).map (delaySeq opts)))) := by
  refine ⟨?_, ⟨rfl, rfl, rfl, rfl, rfl⟩, ?_, ?_⟩
  · have h := retryLoop_attempts_le op opts opts.maxRetries 0 opts.initialDelayMs
    simpa [withExponentialBackoff] using h
  · intro e
    rcases e with ⟨st, msg⟩
    cases st with
    | none =>
      cases msg with
      | none => simp [shouldRetry]
      | some m =>
        by_cases hm : m = ""
        · subst hm
          simp [shouldRetry]
          exact ⟨by decide, by decide, by decide, by decide⟩
        · simp [shouldRetry, hm]
          tauto
    | some s =>
      cases msg with
      | none => simp [shouldRetry]
      | some m =>
        by_cases hm : m = ""
        · subst hm
          simp [shouldRetry]
          intro h
          exact absurd h (by decide)
        · simp [shouldRetry, hm]
          tauto
  · intro k hk hpre
    have hs := retryLoop_spec op opts k 0 opts.maxRetries opts.initialDelayMs hk
      (by simpa using hpre)
    constructor
    · intro v hv
      have := hs.1 v (by simpa using hv)
      simpa [withExponentialBackoff, delayIter_eq_delaySeq] using this
    · intro e he hcond
      have := hs.2 e (by simpa using he) hcond
      simpa [withExponentialBackoff, delayIter_eq_delaySeq] using this

/-- C2 witness: two 503 failures then a success under default options:
three attempts, delays 200 ms and 400 ms, result 42. -/
theorem withExponentialBackoff_spec_witness :
    withExponentialBackoff
        (fun n => if n < 2 then .error ⟨some 503, none⟩ else .ok (42 : Nat)) {} =
      (.ok 42, 3, [(200 : ℚ), 400]) := by
  have h := ((withExponentialBackoff_spec
      (fun n => if n < 2 then .error ⟨some 503, none⟩ else .ok (42 : Nat)) {}).2.2.2 2
      (by decide)
      (fun j hj => ⟨⟨some 503, none⟩, by simp [hj], by decide⟩)).1 42 rfl
  rw [h]
  norm_num [delaySeq, List.range_succ]

/-- The head of a descending-by-weight ordered insert. -/
theorem head?_orderedInsert (x : IMatch) (l : List IMatch) :
    (l.orderedInsert byWeightDesc x).head? =
      some (match l.head? with
        | none => x
        | some b => if b.weight ≤ x.weight then x else b) := by
  cases l with
  | nil => simp [List.orderedInsert]
  | cons b t =>
    by_cases h : byWeightDesc x b
    · have hw : b.weight ≤ x.weight := h
      simp [List.orderedInsert, if_pos h, hw]
    · have hw : ¬ b.weight ≤ x.weight := h
      simp [List.orderedInsert, if_neg h, hw]

/-- The head of the stable descending sort is the earliest
maximum-weight element. -/
theorem head?_insertionSort_pickBest (l : List IMatch) :
    (l.insertionSort byWeightDesc).head? = pickBest l := by
  induction l with
  | nil => simp [pickBest]
  | cons x xs ih =>
    rw [List.insertionSort, head?_orderedInsert, ih]
    cases h : pickBest xs with
    | none => simp [pickBest, h]
    | some y =>
      simp only [pickBest, h]
      rcases Nat.lt_or_ge x.weight y.weight with hw | hw
      · rw [if_neg (by omega), if_pos hw]
      · rw [if_pos (by omega), if_neg (by omega)]

/-- The guarded `filterMap` of the rule loop is a filter-then-map. -/
theorem filterMap_guard_eq {α β : Type _} (q p1 p2 : α → Bool) (g : α → β) :
    ∀ l : List α,
      l.filterMap (fun x => if q x then none
          else if p1 x && p2 x then some (g x) else none) =
        (l.filter (fun x => !q x && p1 x && p2 x)).map g := by
  intro l
  induction l with
  | nil => rfl
  | cons x xs ih =>
    by_cases hq : q x
    · simp_all [List.filterMap_cons, List.filter_cons]
    · by_cases h1 : p1 x
      · by_cases h2 : p2 x
        · simp_all [List.filterMap_cons, List.filter_cons]
        · simp_all [List.filterMap_cons, List.filter_cons]
      · simp_all [List.filterMap_cons, List.filter_cons]

/-- The `matches` array is the matching-and-eligible rules, mapped to
intent/weight pairs. -/
theorem intentMatches_eq_filter (message : String) (ctx : Bool) :
    intentMatches message ctx =
      (intentRules.filter (fun rule => (!(rule.requiresContext && !ctx)) &&
          rulePatternsMatch message rule && ruleKeywordsMatch message rule)).map
        (fun r => { intent := r.intent, weight := r.weight }) := by
  unfold intentMatches
  exact filterMap_guard_eq (fun rule => rule.requiresContext && !ctx)
    (rulePatternsMatch message) (ruleKeywordsMatch message)
    (fun r => ({ intent := r.intent, weight := r.weight } : IMatch)) intentRules

/-- C1: `inferIntent` returns the intent of the matching rule of greatest
weight — a rule matches when some pattern matches and (when keyword sets
are given) some keyword set is wholly present case-insensitively;
`requiresContext` rules are skipped without context; ties go to the
earlier rule; and with no match the result is `general_chat`.  Stated as
equality with `inferIntentSpec`, the selection written the way the claim
words it. -/
theorem inferIntent_picks_heaviest_earliest (message : String) (ctx : Bool) :
    inferIntent message ctx = inferIntentSpec message ctx := by
  unfold inferIntent inferIntentSpec
  simp only [intentMatches_eq_filter, head?_insertionSort_pickBest]

/-- `detectEnhancedIntent` never changes the classified intent: its
`intentType` is `inferIntent`. -/
theorem detectEnhancedIntent_intentType (message : String) (h : Bool) :
    (detectEnhancedIntent message h).intentType = inferIntent message h := by
  unfold detectEnhancedIntent adjustIntentConfidence
  cases hfind : (architectureIntents.find? (fun ai => jsTest ai.pattern message)) <;>
    by_cases hp : inferIntent message h == Intent.architecture_update <;>
      simp [hfind, hp]

/-- Without architecture context, only the seven context-free rules can
contribute matches. -/
theorem intentMatches_false_intents (message : String) :
    ∀ m ∈ intentMatches message false,
      m.intent = Intent.greeting ∨ m.intent = Intent.code_generation ∨
      m.intent = Intent.code_explanation ∨ m.intent = Intent.system_design ∨
      m.intent = Intent.comparison ∨ m.intent = Intent.question ∨
      m.intent = Intent.general_chat := by
  intro m hm
  rcases List.mem_filterMap.mp hm with ⟨rule, hrule, hf⟩
  unfold intentRules at hrule
  fin_cases hrule <;> (simp at hf; try rcases hf with ⟨-, rfl⟩; simp)

/-- Without architecture context the result is one of the seven
context-free intents. -/
theorem inferIntent_false_mem (message : String) :
    inferIntent message false ∈ [Intent.greeting, Intent.code_generation,
      Intent.code_explanation, Intent.system_design, Intent.comparison,
      Intent.question, Intent.general_chat] := by
  show (match (List.insertionSort byWeightDesc (intentMatches message false)).head? with
    | some m => m.intent
    | none => Intent.general_chat) ∈ _
  cases hh : (List.insertionSort byWeightDesc (intentMatches message false)).head? with
  | none => simp
  | some m =>
    have hmem : m ∈ List.insertionSort byWeightDesc (intentMatches message false) :=
      List.mem_of_mem_head? (by simp [hh])
    have hmem2 : m ∈ intentMatches message false :=
      (List.perm_insertionSort byWeightDesc (intentMatches message false)).mem_iff.mp hmem
    have := intentMatches_false_intents message m hmem2
    simpa using this

/-- C9: with `hasArchitectureContext = false`, `inferIntent` never returns
`architecture_update`, `architecture_rationale`, `cdk_generation` or
`architecture_explanation` (every rule for those intents requires
context), and consequently neither does
`detectEnhancedIntent(message, false).intentType`. -/
theorem inferIntent_requires_context (message : String) :
    inferIntent message false ∉ [Intent.architecture_update,
      Intent.architecture_rationale, Intent.cdk_generation,
      Intent.architecture_explanation] ∧
    (detectEnhancedIntent message false).intentType ∉ [Intent.architecture_update,
      Intent.architecture_rationale, Intent.cdk_generation,
      Intent.architecture_explanation] := by
  have hm := inferIntent_false_mem message
  have h1 : ∀ i : Intent, i ∈ [Intent.greeting, Intent.code_generation,
      Intent.code_explanation, Intent.system_design, Intent.comparison,
      Intent.question, Intent.general_chat] →
      i ∉ [Intent.architecture_update, Intent.architecture_rationale,
        Intent.cdk_generation, Intent.architecture_explanation] := by decide
  exact ⟨h1 _ hm, by rw [detectEnhancedIntent_intentType]; exact h1 _ hm⟩

/-- `detectProgrammingLanguage` never returns the empty string (every
returned value is one of finitely many non-empty literals). -/
theorem detectProgrammingLanguage_ne_empty (message : String) :
    ∀ l, detectProgrammingLanguage message = some l → l ≠ "" := by
  intro l hl hcon
  subst hcon
  unfold detectProgrammingLanguage at hl
  dsimp only at hl
  cases h1 : (langFirstBlock.find? (fun p => testR p.1 (lowerL message.data))) with
  | some p =>
    rw [h1] at hl
    simp at hl
    have hp := List.mem_of_find?_eq_some h1
    unfold langFirstBlock at hp
    fin_cases hp <;> simp_all
  | none =>
    rw [h1] at hl
    simp only [Option.map_none'] at hl
    cases h2 : (langSecondBlock.find? (fun p => testWB p.1 (lowerL message.data))) with
    | some p =>
      rw [h2] at hl
      simp at hl
      have hp := List.mem_of_find?_eq_some h2
      simp only [langSecondBlock, List.mem_map] at hp
      rcases hp with ⟨q, hq, rfl⟩
      fin_cases hq <;> simp_all
    | none =>
      rw [h2] at hl
      simp only [Option.map_none'] at hl
      split at hl
      · simp at hl
      · simp at hl

/-- The JS-truthiness language fallback of `processJarvisRequest` is the
plain `typescript` default the claim describes. -/
theorem targetLanguage_fallback_eq (message : String) :
    (match detectProgrammingLanguage message with
     | some l => if l == "" then "typescript" else l
     | none => "typescript") = (detectProgrammingLanguage message).getD "typescript" := by
  cases h : detectProgrammingLanguage message with
  | none => rfl
  | some l =>
    have hne : l ≠ "" := detectProgrammingLanguage_ne_empty message l h
    simp [hne]

/-- C5: for messages whose detected intent is not `architecture_update`,
`processJarvisRequest` (with a successful model oracle) is exactly the
sequential pipeline — intent detection, language detection with the
`typescript` fallback, context/prompt generation, the AI call, and
post-processing: it returns `architectureUpdated = false` and the response
`postProcessResponse(intent, rawModelOutput, language)`. -/
theorem processJarvisRequest_is_pipeline
    (ai : CohereChatOptions → String) (envCohereModel : Option String)
    (message : String) (architecture : ArchitectureContext)
    (messageHistory : List Json)
    (h : (detectEnhancedIntent message true).intentType ≠ Intent.architecture_update) :
    processJarvisRequest ai envCohereModel message architecture messageHistory =
      jarvisPipelineStages ai envCohereModel message architecture ∧
    (processJarvisRequest ai envCohereModel message architecture
        messageHistory).architectureUpdated = false ∧
    (processJarvisRequest ai envCohereModel message architecture
        messageHistory).response =
      postProcessResponse (detectEnhancedIntent message true).intentType
        (ai { model := (match envCohereModel with
                | some m => if m == "" then "command-r-plus" else m
                | none => "command-r-plus"),
              message := message,
              promptContext := generateAIPrompt (detectEnhancedIntent message true)
                message architecture ((detectProgrammingLanguage message).getD "typescript"),
              temperature := (if jsIncludes
                  (detectEnhancedIntent message true).intentType.toTsString "code"
                then 1/2 else 7/10),
              maxTokens := 2000 })
        (some ((detectProgrammingLanguage message).getD "typescript")) := by
  have hb : ((detectEnhancedIntent message true).intentType ==
      Intent.architecture_update) = false := by
    simpa using h
  have hmain : processJarvisRequest ai envCohereModel message architecture
      messageHistory = jarvisPipelineStages ai envCohereModel message architecture := by
    unfold processJarvisRequest jarvisPipelineStages
    rw [targetLanguage_fallback_eq]
    simp [hb]
  refine ⟨hmain, ?_, ?_⟩ <;> rw [hmain] <;> rfl

/-- C5 witness: a greeting goes through the pipeline unchanged. -/
theorem processJarvisRequest_is_pipeline_witness :
    processJarvisRequest (fun _ => "Hi there!") none "hello" ⟨[], [], none⟩ [] =
      jarvisPipelineStages (fun _ => "Hi there!") none "hello" ⟨[], [], none⟩ :=
  (processJarvisRequest_is_pipeline (fun _ => "Hi there!") none "hello" ⟨[], [], none⟩ []
    (by decide)).1

/-- A list is a prefix of itself followed by anything. -/
theorem hasPfx_append (mid post : List Char) : hasPfx mid (mid ++ post) = true := by
  induction mid with
  | nil => rfl
  | cons c cs ih => simp [hasPfx, ih]

/-- `includes` finds a substring at any split. -/
theorem containsSub_append (pre mid post : List Char) :
    containsSub mid (pre ++ (mid ++ post)) = true := by
  induction pre with
  | nil =>
    rw [List.nil_append]
    cases hmid : mid with
    | nil => cases post <;> simp [containsSub, hasPfx]
    | cons c cs =>
      have h : hasPfx (c :: cs) (c :: (cs ++ post)) = true := hasPfx_append (c :: cs) post
      rw [List.cons_append, containsSub, h]
      rfl
  | cons x xs ih =>
    rw [List.cons_append, containsSub, ih]
    simp

/-- `String.prototype.includes` holds for any exhibited split. -/
theorem jsIncludes_of_eq (s pre mid post : String) (h : s = pre ++ (mid ++ post)) :
    jsIncludes s mid = true := by
  subst h
  show containsSub mid.data (pre.data ++ (mid.data ++ post.data)) = true
  exact containsSub_append pre.data mid.data post.data

/-- Appending a non-empty string gives a non-empty string. -/
theorem append_ne_empty_right (a b : String) (h : b ≠ "") : a ++ b ≠ "" := by
  intro hc
  apply h
  have hd : a.data ++ b.data = [] := congrArg String.data hc
  exact String.ext (List.append_eq_nil.mp hd).2

/-- C8: `generateContextString` is empty exactly for level `none`; the
`minimal` context contains the node count and the edge count; and the
`full` context embeds the complete pretty-printed JSON serializations of
the nodes array and the edges array. -/
theorem generateContextString_levels (architecture : Architecture) (level : ContextLevel) :
    (generateContextString architecture level = "" ↔ level = ContextLevel.none) ∧
    (jsIncludes (generateContextString architecture ContextLevel.minimal)
        (toString architecture.nodes.length ++ " services") = true ∧
      jsIncludes (generateContextString architecture ContextLevel.minimal)
        (toString architecture.edges.length ++ " connections") = true) ∧
    (jsIncludes (generateContextString architecture ContextLevel.full)
        (jsonStringifyPretty (Json.arr architecture.nodes)) = true ∧
      jsIncludes (generateContextString architecture ContextLevel.full)
        (jsonStringifyPretty (Json.arr architecture.edges)) = true) := by
  refine ⟨?_, ⟨?_, ?_⟩, ⟨?_, ?_⟩⟩
  · cases level with
    | none => simp [generateContextString]
    | minimal =>
      refine iff_of_false ?_ (by decide)
      exact append_ne_empty_right _ "\n" (by decide)
    | summary =>
      refine iff_of_false ?_ (by decide)
      exact append_ne_empty_right _ "\n" (by decide)
    | full =>
      refine iff_of_false ?_ (by decide)
      exact append_ne_empty_right _ "\n" (by decide)
  · refine jsIncludes_of_eq _ "\nCURRENT ARCHITECTURE (MINIMAL):\n- "
      (toString architecture.nodes.length ++ " services")
      ("\n- " ++ (toString architecture.edges.length ++
        (" connections\n" ++ (originalRequirement architecture ++ "\n")))) ?_
    show "\nCURRENT ARCHITECTURE (MINIMAL):\n- " ++ toString architecture.nodes.length ++
      " services\n- " ++ toString architecture.edges.length ++ " connections\n" ++
      originalRequirement architecture ++ "\n" = _
    simp [String.append_assoc]
    rw [show (" services\n- " : String) = " services" ++ "\n- " from rfl,
      String.append_assoc]
  · refine jsIncludes_of_eq _ ("\nCURRENT ARCHITECTURE (MINIMAL):\n- " ++
      (toString architecture.nodes.length ++ " services\n- "))
      (toString architecture.edges.length ++ " connections")
      ("\n" ++ (originalRequirement architecture ++ "\n")) ?_
    show "\nCURRENT ARCHITECTURE (MINIMAL):\n- " ++ toString architecture.nodes.length ++
      " services\n- " ++ toString architecture.edges.length ++ " connections\n" ++
      originalRequirement architecture ++ "\n" = _
    simp [String.append_assoc]
    rw [show (" connections\n" : String) = " connections" ++ "\n" from rfl,
      String.append_assoc]
  · refine jsIncludes_of_eq _ "\nFULL CURRENT ARCHITECTURE:\nNodes JSON: \n```json\n"
      (jsonStringifyPretty (Json.arr architecture.nodes))
      ("\n```\n\nEdges JSON: \n```json\n" ++ (jsonStringifyPretty (Json.arr architecture.edges) ++
        ("\n```\n\nServices Summary:\n- " ++ (servicesSummary architecture.nodes ++
        ("\n\nConnections Summary:\n- " ++ (connectionsSummary architecture.nodes architecture.edges ++
        ("\n\n" ++ (originalRequirement architecture ++ "\n")))))))) ?_
    show "\nFULL CURRENT ARCHITECTURE:\nNodes JSON: \n```json\n" ++
      jsonStringifyPretty (Json.arr architecture.nodes) ++ "\n```\n\nEdges JSON: \n```json\n" ++
      jsonStringifyPretty (Json.arr architecture.edges) ++ "\n```\n\nServices Summary:\n- " ++
      servicesSummary architecture.nodes ++ "\n\nConnections Summary:\n- " ++
      connectionsSummary architecture.nodes architecture.edges ++ "\n\n" ++
      originalRequirement architecture ++ "\n" = _
    simp [String.append_assoc]
  · refine jsIncludes_of_eq _ ("\nFULL CURRENT ARCHITECTURE:\nNodes JSON: \n```json\n" ++
      (jsonStringifyPretty (Json.arr architecture.nodes) ++ "\n```\n\nEdges JSON: \n```json\n"))
      (jsonStringifyPretty (Json.arr architecture.edges))
      ("\n```\n\nServices Summary:\n- " ++ (servicesSummary architecture.nodes ++
        ("\n\nConnections Summary:\n- " ++ (connectionsSummary architecture.nodes architecture.edges ++
        ("\n\n" ++ (originalRequirement architecture ++ "\n")))))) ?_
    show "\nFULL CURRENT ARCHITECTURE:\nNodes JSON: \n```json\n" ++
      jsonStringifyPretty (Json.arr architecture.nodes) ++ "\n```\n\nEdges JSON: \n```json\n" ++
      jsonStringifyPretty (Json.arr architecture.edges) ++ "\n```\n\nServices Summary:\n- " ++
      servicesSummary architecture.nodes ++ "\n\nConnections Summary:\n- " ++
      connectionsSummary architecture.nodes architecture.edges ++ "\n\n" ++
      originalRequirement architecture ++ "\n" = _
    simp [String.append_assoc]

/-- The text before the first triple backtick
(`substring(0, indexOf("```"))`). -/
def introTextOf (s : String) : String :=
  String.mk (s.data.take ((indexOfSub "```".data s.data).getD 0))

/-- C7: for `cdk_generation` and `code_generation`, a response with no
fenced code block is wrapped in one labeled with the given language
(default `typescript` for CDK, `javascript` for code); when a fenced code
block is present, only the first block is kept, preceded by the text
before it exactly when that trimmed intro is non-empty and shorter than
100 characters; and `greeting` / `general_chat` responses are returned
trimmed. -/
theorem postProcessResponse_formats (intent : Intent) (rawResponse : String)
    (language : Option String) :
    ((intent = Intent.cdk_generation ∨ intent = Intent.code_generation) →
      jsIncludes rawResponse "```" = false →
      postProcessResponse intent rawResponse language =
        "```" ++ (match language with
          | some l => if l = "" then
              (if intent = Intent.cdk_generation then "typescript" else "javascript")
            else l
          | none => if intent = Intent.cdk_generation then "typescript" else "javascript") ++
        "\n" ++ jsTrim rawResponse ++ "\n```") ∧
    ((intent = Intent.cdk_generation ∨ intent = Intent.code_generation) →
      jsIncludes rawResponse "```" = true →
      ∀ block, jsMatchWhole codeBlockRegex rawResponse = some block →
        ((jsTrim (introTextOf rawResponse)).length < 100 →
          postProcessResponse intent rawResponse language =
            (if jsTrim (introTextOf rawResponse) = "" then block
             else jsTrim (introTextOf rawResponse) ++ "\n\n" ++ block)) ∧
        (¬ (jsTrim (introTextOf rawResponse)).length < 100 →
          postProcessResponse intent rawResponse language = block)) ∧
    ((intent = Intent.greeting ∨ intent = Intent.general_chat) →
      postProcessResponse intent rawResponse language = jsTrim rawResponse) := by
  refine ⟨?_, ?_, ?_⟩
  · rintro (rfl | rfl) hinc <;>
      (simp only [postProcessResponse, hinc]; cases language with
        | none => simp
        | some l => by_cases hl : l = "" <;> simp [hl])
  · rintro h hinc block hblock
    have hsplit : ((jsTrim (introTextOf rawResponse)).length < 100 →
        postProcessResponse Intent.cdk_generation rawResponse language =
          (if jsTrim (introTextOf rawResponse) = "" then block
           else jsTrim (introTextOf rawResponse) ++ "\n\n" ++ block)) ∧
        (¬ (jsTrim (introTextOf rawResponse)).length < 100 →
          postProcessResponse Intent.cdk_generation rawResponse language = block) := by
      constructor
      · intro hlen
        by_cases hemp : jsTrim (introTextOf rawResponse) = ""
        all_goals simp only [introTextOf] at hlen hemp
        all_goals simp [postProcessResponse, hinc, hblock, introTextOf, hlen, hemp]
      · intro hlen
        simp only [introTextOf] at hlen
        simp [postProcessResponse, hinc, hblock, introTextOf, hlen]
    have hsplit2 : ((jsTrim (introTextOf rawResponse)).length < 100 →
        postProcessResponse Intent.code_generation rawResponse language =
          (if jsTrim (introTextOf rawResponse) = "" then block
           else jsTrim (introTextOf rawResponse) ++ "\n\n" ++ block)) ∧
        (¬ (jsTrim (introTextOf rawResponse)).length < 100 →
          postProcessResponse Intent.code_generation rawResponse language = block) := by
      constructor
      · intro hlen
        by_cases hemp : jsTrim (introTextOf rawResponse) = ""
        all_goals simp only [introTextOf] at hlen hemp
        all_goals simp [postProcessResponse, hinc, hblock, introTextOf, hlen, hemp]
      · intro hlen
        simp only [introTextOf] at hlen
        simp [postProcessResponse, hinc, hblock, introTextOf, hlen]
    rcases h with rfl | rfl
    · exact hsplit
    · exact hsplit2
  · rintro (rfl | rfl) <;> simp [postProcessResponse]

/-- C7 witness: the three formatting behaviours at concrete inputs. -/
theorem postProcessResponse_formats_witness :
    postProcessResponse Intent.cdk_generation "const x = 1;" none =
      "```typescript\nconst x = 1;\n```" ∧
    postProcessResponse Intent.code_generation "Intro\n\n```ts\nlet x=1\n```\nmore" none =
      "Intro\n\n```ts\nlet x=1\n```" ∧
    postProcessResponse Intent.greeting "  hi  " none = "hi" := by
  refine ⟨?_, ?_, ?_⟩
  · have h := (postProcessResponse_formats Intent.cdk_generation "const x = 1;" none).1
      (Or.inl rfl) (by decide)
    rw [h]
    rfl
  · have h := ((postProcessResponse_formats Intent.code_generation
      "Intro\n\n```ts\nlet x=1\n```\nmore" none).2.1 (Or.inr rfl) (by decide)
      "```ts\nlet x=1\n```" rfl).1 (by decide)
    rw [h]
    rfl
  · have h := (postProcessResponse_formats Intent.greeting "  hi  " none).2.2 (Or.inl rfl)
    rw [h]
    rfl

/-- `sessionsGet` after `sessionsSet` at a different id is unchanged. -/
theorem sessionsGet_set_ne (ss : SessionStore) (id id2 : String)
    (s : ConversationSession) (h : id2 ≠ id) :
    sessionsGet (sessionsSet ss id s) id2 = sessionsGet ss id2 := by
  have hb : (id == id2) = false := by
    simp
    exact fun hc => h hc.symm
  simp [sessionsGet, sessionsSet, List.find?_cons, hb]

/-- `getOrCreateSession` leaves every other id of the store unchanged. -/
theorem getOrCreateSession_fst_get_ne (ss : SessionStore) (id id2 : String)
    (now : Nat) (h : id2 ≠ id) :
    sessionsGet (getOrCreateSession ss id now).1 id2 = sessionsGet ss id2 := by
  cases hfind : sessionsGet ss id with
  | some s => simp [getOrCreateSession, hfind]
  | none =>
    simp only [getOrCreateSession, hfind]
    exact sessionsGet_set_ne ss id id2 _ h

/-- Running `getOrCreateSession` twice at the same id is the same as once:
the second run finds the session the first one stored (or found). -/
theorem getOrCreateSession_idem (ss : SessionStore) (id : String) (now : Nat) :
    getOrCreateSession (getOrCreateSession ss id now).1 id now =
      ((getOrCreateSession ss id now).1, (getOrCreateSession ss id now).2) := by
  cases hfind : sessionsGet ss id with
  | some s => simp [getOrCreateSession, hfind]
  | none =>
    simp only [getOrCreateSession, hfind]
    simp [getOrCreateSession, sessionsGet_set]

/-- C6 counterexample: handling one request does NOT leave every stored
session unchanged. Starting from the empty session store, orchestrating a
single request for architecture `arch-1` returns a store that differs from
the empty one: `orchestrateJarvisRequest` calls `getOrCreateSession` and
`updateSession` on the module-level `activeSessions` map, creating and
mutating a session entry that survives the request. -/
theorem orchestrateJarvisRequest_mutates_sessions :
    (orchestrateJarvisRequest (fun _ => "ok") none "hi" "arch-1" ⟨[], [], none⟩ [] [] 7
        (fun _ => 0) (fun _ => 0)).1 ≠ ([] : SessionStore) := by
  decide

/-- C6 (amended): handling a request is stateful, but in a confined way.
`orchestrateJarvisRequest` touches exactly the session keyed by the given
`architectureId`: every other stored session is unchanged; the session at
`architectureId` exists afterwards, its intent history equals the previous
history extended by the newly detected intent (kept to the last 20 by
`updateSession`), and its `lastMessageTimestamp` is the request time; and
the response returned to the caller does not depend on the session store
at all -- two identical requests produce the same response even though the
global state they observe differs. -/
theorem orchestrateJarvisRequest_session_frame
    (ai : CohereChatOptions → String) (envCohereModel : Option String)
    (message architectureId : String) (architecture : ArchitectureContext)
    (messageHistory : List Json) (ss : SessionStore) (dateNow : Nat)
    (perf : Nat → ℚ) (rands : Nat → Nat) :
    (∀ id, id ≠ architectureId →
      sessionsGet (orchestrateJarvisRequest ai envCohereModel message architectureId
        architecture messageHistory ss dateNow perf rands).1 id = sessionsGet ss id) ∧
    (∃ s, sessionsGet (orchestrateJarvisRequest ai envCohereModel message architectureId
        architecture messageHistory ss dateNow perf rands).1 architectureId = some s ∧
      s.intents = updIntents (getOrCreateSession ss architectureId dateNow).2.intents
        { intent := some (detectEnhancedIntent message true).intentType } dateNow ∧
      s.lastMessageTimestamp = dateNow) ∧
    (∀ ss2 : SessionStore,
      (orchestrateJarvisRequest ai envCohereModel message architectureId
        architecture messageHistory ss dateNow perf rands).2 =
      (orchestrateJarvisRequest ai envCohereModel message architectureId
        architecture messageHistory ss2 dateNow perf rands).2) := by
  have hfst : (orchestrateJarvisRequest ai envCohereModel message architectureId
      architecture messageHistory ss dateNow perf rands).1 =
      updateSession (getOrCreateSession ss architectureId dateNow).1 architectureId
        { intent := some (detectEnhancedIntent message true).intentType } dateNow := rfl
  obtain ⟨s3, heq, hint, hts⟩ := updateSession_eq
    (getOrCreateSession ss architectureId dateNow).1 architectureId
    { intent := some (detectEnhancedIntent message true).intentType } dateNow
  refine ⟨?_, ?_, fun ss2 => rfl⟩
  · intro id hid
    rw [hfst, heq, sessionsGet_set_ne _ _ _ _ hid]
    rw [getOrCreateSession_fst_get_ne _ _ _ _ hid]
    exact getOrCreateSession_fst_get_ne _ _ _ _ hid
  · refine ⟨s3, ?_, ?_, hts⟩
    · rw [hfst, heq, sessionsGet_set]
    · rw [hint, getOrCreateSession_idem]

/-- A pattern that contributes a parsed architecture did match with a
non-empty group 1 whose trimmed, cleaned text parses to JSON of the right
shape. -/
theorem archPatternCandidate_eq_some (rawResponse : String) (p : JsRegex) (j : Json)
    (h : archPatternCandidate rawResponse p = some j) :
    ∃ t : String, jsMatchGroup p 1 rawResponse = some (some t) ∧ t ≠ "" ∧
      jsonParse (String.mk (cleanupArchText (trimL t.data))) = some j ∧
      isValidArchJson j = true := by
  rw [archPatternCandidate] at h
  split at h
  · next t hm =>
    split at h
    · exact absurd h (by simp)
    · next hne =>
      dsimp only at h
      split at h
      · next j2 hp =>
        split at h
        · next hv =>
          refine ⟨t, hm, by simpa using hne, ?_, ?_⟩
          · rw [hp]
            exact congrArg some (Option.some.inj h)
          · rw [← Option.some.inj h]
            exact hv
        · exact absurd h (by simp)
      · exact absurd h (by simp)
  · exact absurd h (by simp)

/-- Conversely, a pattern whose non-empty group 1 parses and validates
contributes that JSON value. -/
theorem archPatternCandidate_of (rawResponse : String) (p : JsRegex) (t : String) (j : Json)
    (h1 : jsMatchGroup p 1 rawResponse = some (some t)) (h2 : t ≠ "")
    (h3 : jsonParse (String.mk (cleanupArchText (trimL t.data))) = some j)
    (h4 : isValidArchJson j = true) :
    archPatternCandidate rawResponse p = some j := by
  rw [archPatternCandidate, h1]
  simp [h2, h3, h4]

/-- The default-and-truncate step of the fallback explanation: a non-empty
input stays non-empty and ends up at most 1503 characters (1500 plus the
appended ellipsis). -/
theorem truncShape (e1 : String) (h : e1 ≠ "") :
    (if e1.length > 1500 then String.mk (e1.data.take 1500) ++ "..." else e1) ≠ "" ∧
    (if e1.length > 1500 then String.mk (e1.data.take 1500) ++ "..." else e1).length ≤ 1503 := by
  have hdots : ("..." : String).length = 3 := rfl
  have hemp : ("" : String).length = 0 := rfl
  have hdata : e1.length = e1.data.length := rfl
  by_cases hl : e1.length > 1500
  · simp only [hl, if_true]
    have h3 : (String.mk (e1.data.take 1500)).length = min 1500 e1.data.length := by
      show (e1.data.take 1500).length = _
      simp [List.length_take]
    constructor
    · intro hc
      have h0 := congrArg String.length hc
      rw [String.length_append] at h0
      omega
    · rw [String.length_append]
      omega
  · simp only [hl, if_false]
    refine ⟨h, ?_⟩
    omega

/-- The fallback explanation is never empty (it defaults to
"Architecture updated.") and never longer than 1503 characters. -/
theorem fallbackExplanation_shape (rawResponse : String) :
    fallbackExplanation rawResponse ≠ "" ∧
    (fallbackExplanation rawResponse).length ≤ 1503 := by
  have h2 : (if jsTrim (archPatterns.foldl (fun acc p => jsRemoveFirst p acc) rawResponse) ==
        "" then ("Architecture updated." : String)
      else jsTrim (archPatterns.foldl (fun acc p => jsRemoveFirst p acc) rawResponse)) ≠ "" := by
    split
    · decide
    · next hne => simpa using hne
  exact truncShape _ h2

/-- C3: `processArchitectureUpdate` returns a non-null `parsedArchitecture`
only when one of its ordered patterns matches with a non-empty group whose
cleaned text parses as JSON with array-valued `nodes` and `edges`; when the
primary `<architecture>…</architecture>` pattern yields such JSON, that
object is the one returned; when every pattern contributes nothing the
result is null; the explanation is the trimmed content of a non-empty
`<explanation>` tag when present, and otherwise the fallback (the response
with JSON blocks removed), which is never empty — it defaults to
"Architecture updated." — and is truncated to at most 1500 characters plus
an ellipsis. -/
theorem processArchitectureUpdate_extraction (rawResponse : String) :
    (∀ j, (processArchitectureUpdate rawResponse).parsedArchitecture = some j →
      ∃ p ∈ archPatterns, ∃ t : String,
        jsMatchGroup p 1 rawResponse = some (some t) ∧ t ≠ "" ∧
        jsonParse (String.mk (cleanupArchText (trimL t.data))) = some j ∧
        isValidArchJson j = true) ∧
    (∀ t : String, ∀ j,
      jsMatchGroup archTagPattern 1 rawResponse = some (some t) → t ≠ "" →
      jsonParse (String.mk (cleanupArchText (trimL t.data))) = some j →
      isValidArchJson j = true →
      (processArchitectureUpdate rawResponse).parsedArchitecture = some j) ∧
    ((∀ p ∈ archPatterns, archPatternCandidate rawResponse p = none) →
      (processArchitectureUpdate rawResponse).parsedArchitecture = none) ∧
    (∀ e : String, jsMatchGroup explanationRegex 1 rawResponse = some (some e) → e ≠ "" →
      (processArchitectureUpdate rawResponse).explanation = jsTrim e) ∧
    ((∀ e : String, jsMatchGroup explanationRegex 1 rawResponse = some (some e) → e = "") →
      (processArchitectureUpdate rawResponse).explanation = fallbackExplanation rawResponse) ∧
    fallbackExplanation rawResponse ≠ "" ∧
    (fallbackExplanation rawResponse).length ≤ 1503 := by
  have hp : (processArchitectureUpdate rawResponse).parsedArchitecture =
      archPatterns.findSome? (archPatternCandidate rawResponse) := rfl
  have he : (processArchitectureUpdate rawResponse).explanation =
      (match jsMatchGroup explanationRegex 1 rawResponse with
       | some (some e) => if e == "" then fallbackExplanation rawResponse else jsTrim e
       | _ => fallbackExplanation rawResponse) := rfl
  refine ⟨?_, ?_, ?_, ?_, ?_, (fallbackExplanation_shape rawResponse).1,
    (fallbackExplanation_shape rawResponse).2⟩
  · intro j h
    rw [hp] at h
    obtain ⟨p, hmem, hc⟩ := List.exists_of_findSome?_eq_some h
    exact ⟨p, hmem, archPatternCandidate_eq_some rawResponse p j hc⟩
  · intro t j h1 h2 h3 h4
    rw [hp]
    have hc := archPatternCandidate_of rawResponse archTagPattern t j h1 h2 h3 h4
    rw [archPatterns]
    simp [List.findSome?_cons, hc]
  · intro hall
    rw [hp]
    simp only [archPatterns, List.mem_cons, List.not_mem_nil, or_false,
      forall_eq_or_imp, forall_eq] at hall
    obtain ⟨h1, h2, h3, h4⟩ := hall
    simp [archPatterns, List.findSome?_cons, h1, h2, h3, h4]
  · intro e h1 h2
    rw [he, h1]
    have hb : (e == "") = false := by simpa using h2
    simp [hb]
  · intro hall
    rcases hm : jsMatchGroup explanationRegex 1 rawResponse with _ | (_ | e)
    · rw [he, hm]
    · rw [he, hm]
    · rw [he, hm]
      have h0 := hall e hm
      simp [h0]

/-- C3 witness: an `<architecture>` block holding an object with empty
`nodes` and `edges` arrays is extracted and parsed. -/
theorem processArchitectureUpdate_extraction_witness :
    (processArchitectureUpdate
      "<architecture>\x7b\"nodes\": [], \"edges\": []\x7d</architecture>").parsedArchitecture =
      some (Json.obj [("nodes", Json.arr []), ("edges", Json.arr [])]) :=
  (processArchitectureUpdate_extraction
      "<architecture>\x7b\"nodes\": [], \"edges\": []\x7d</architecture>").2.1
    "\x7b\"nodes\": [], \"edges\": []\x7d"
    (Json.obj [("nodes", Json.arr []), ("edges", Json.arr [])])
    (by decide) (by decide) (by rfl) (by rfl)
